import Mathlib

/-!
Verification of the JAL interpreter (tokenizer, parser, type checker,
tree-walking evaluator) by a shallow embedding in Lean 4.

The embedding follows the TypeScript sources:
  - the tokenizer (`Tokenizer.tokenize` and its helpers),
  - the recursive-descent parser (`Parser.parseProgram` and friends,
    including the post-parse inference pass `inferTypesInProgram`),
  - the type checker (`TypeChecker.check`),
  - the evaluator (`Interpreter.execute`) and the built-in `Library`,
  - the CLI driver (`main`), modelled as `runMain`.

Modelling conventions:
  - JavaScript numbers are modelled as exact rationals.  Every concrete
    program evaluated in the theorems below stays within the range where
    IEEE double arithmetic is exact (small integers and halves), so the
    idealisation is faithful on those inputs.
  - Exceptions are modelled as `Except String`; the mutated interpreter
    state at the moment of the throw is returned alongside, matching a
    TypeScript class object whose fields survive a thrown exception.
  - The debug step log (`addStep`, `depth`) of the interpreter is pure
    logging and is not modelled.
  - JavaScript `Map` objects become association lists with the same
    has/get/set interface.
  - Lists are reference values in the source; here they are modelled as
    immutable values, and a list-push statement writes the extended list
    back to the target variable binding when the target is a variable
    (bypassing the mutability flag, exactly as reference mutation does).
    For a non-variable target the source mutates a temporary that nothing
    else references, so dropping the write is observationally equal.
    No theorem below depends on aliasing between two live list bindings.
  - Strict equality on two lists is reference equality in the source; the
    value model returns `false` for it, which agrees with the source
    whenever the two operand expressions build distinct array objects.
    No theorem below exercises list equality.
  - All recursive functions take an explicit fuel argument that decreases
    at every call; exhaustion is a distinguished error.
-/

namespace JAL

/-! ## Static types (the `TypeAnnotation` union of `types.ts`) -/

/-- Static type of the checker, from the tagged union in `types.ts`.
Bit widths are carried as plain naturals. -/
inductive Ty where
  | int (bits : Nat)
  | float (bits : Nat)
  | bool
  | string
  | list (elem : Ty)
  | void
deriving DecidableEq, Repr

/-- `mapTypeTokenToAnnotation` of `types.ts`: the type-name string carried
by a TYPE token, mapped to its internal type; unknown names throw. -/
def mapTypeToken (s : String) : Except String Ty :=
  if s = "int" ∨ s = "i32" then .ok (.int 32)
  else if s = "i8" then .ok (.int 8)
  else if s = "i16" then .ok (.int 16)
  else if s = "i64" then .ok (.int 64)
  else if s = "float" ∨ s = "f32" then .ok (.float 32)
  else if s = "f64" then .ok (.float 64)
  else if s = "bool" then .ok .bool
  else if s = "string" then .ok .string
  else if s = "void" then .ok .void
  else if s = "list" then .ok (.list .void)
  else .error ("Unknown type name: " ++ s)

/-! ## Tokens (`types.ts` enums, with the members the current sources use) -/

/-- Token types: the union of the TypeScript token enums (function,
variable, syntax, scope, literal, operator, bracket, built-in, keyword
and meta token types). -/
inductive TokenTy where
  | FN | FN_OPEN_PARAM | FN_END_PARAM | RETURN
  | LET | CONST | VARIABLE
  | ASSIGN_EQUAL | ASSIGN_COLON | INFER_TYPE | COMMA
  | SCOPE_OPEN | SCOPE_END
  | VALUE | TYPE
  | PLUS | MINUS | MULTIPLY | DIVIDE | MOD
  | EQUAL_EQUAL | NOT_EQUAL | LESS_THAN | LESS_EQUAL
  | GREATER_THAN | GREATER_EQUAL
  | BRACKET_OPEN | BRACKET_CLOSE
  | LIST_PUSH | DOT
  | IF | ELSE | WHILE | FOR | OF | IN
  | EOF
deriving DecidableEq, Repr

/-- The string value of each enum member (TypeScript enums are
string-valued, and parser error messages interpolate them). -/
def tokenTyName : TokenTy → String
  | .FN => "FN" | .FN_OPEN_PARAM => "FN_OPEN_PARAM"
  | .FN_END_PARAM => "FN_END_PARAM" | .RETURN => "RETURN"
  | .LET => "LET" | .CONST => "CONST" | .VARIABLE => "VARIABLE"
  | .ASSIGN_EQUAL => "ASSIGN_EQUAL" | .ASSIGN_COLON => "ASSIGN_COLON"
  | .INFER_TYPE => "INFER_TYPE" | .COMMA => "COMMA"
  | .SCOPE_OPEN => "SCOPE_OPEN" | .SCOPE_END => "SCOPE_END"
  | .VALUE => "VALUE" | .TYPE => "TYPE"
  | .PLUS => "PLUS" | .MINUS => "MINUS" | .MULTIPLY => "MULTIPLY"
  | .DIVIDE => "DIVIDE" | .MOD => "MOD"
  | .EQUAL_EQUAL => "EQUAL_EQUAL" | .NOT_EQUAL => "NOT_EQUAL"
  | .LESS_THAN => "LESS_THAN" | .LESS_EQUAL => "LESS_EQUAL"
  | .GREATER_THAN => "GREATER_THAN" | .GREATER_EQUAL => "GREATER_EQUAL"
  | .BRACKET_OPEN => "BRACKET_OPEN" | .BRACKET_CLOSE => "BRACKET_CLOSE"
  | .LIST_PUSH => "LIST_PUSH" | .DOT => "DOT"
  | .IF => "IF" | .ELSE => "ELSE" | .WHILE => "WHILE" | .FOR => "FOR"
  | .OF => "OF" | .IN => "IN"
  | .EOF => "EOF"

/-- `PRECEDENCE` of `types.ts`: a partial map on operator token types.
Only the five arithmetic operators have an entry; in particular the six
comparison operators have none. -/
def PRECEDENCE : TokenTy → Option Nat
  | .MULTIPLY => some 3
  | .DIVIDE => some 3
  | .MOD => some 3
  | .PLUS => some 2
  | .MINUS => some 2
  | _ => none

/-! ## Runtime values (`RuntimeValue` of `types.ts`) -/

/-- Runtime value: number (exact rational in this model), string, boolean,
list, or null.  The source also allows `undefined`; the only `undefined`
the evaluator manipulates is the reset `returnValue`, modelled as
`Option Rv` in the interpreter state. -/
inductive Rv where
  | null
  | bool (b : Bool)
  | num (q : ℚ)
  | str (s : String)
  | list (xs : List Rv)
deriving Repr

/-- JavaScript `typeof`, restricted to the runtime values of JAL
(`typeof null` and `typeof []` are both "object"). -/
def jsTypeof : Rv → String
  | .null => "object"
  | .bool _ => "boolean"
  | .num _ => "number"
  | .str _ => "string"
  | .list _ => "object"

/-! Exact rational arithmetic spelled out over `mkRat` and integer
operations (the model of JavaScript number arithmetic; every concrete
value the theorems touch is exact in IEEE doubles as well). -/

/-- Rational addition. -/
def ratAdd (a b : ℚ) : ℚ :=
  mkRat (a.num * (b.den : ℤ) + b.num * (a.den : ℤ)) (a.den * b.den)

/-- Rational subtraction. -/
def ratSub (a b : ℚ) : ℚ :=
  mkRat (a.num * (b.den : ℤ) - b.num * (a.den : ℤ)) (a.den * b.den)

/-- Rational multiplication. -/
def ratMul (a b : ℚ) : ℚ := mkRat (a.num * b.num) (a.den * b.den)

/-- Rational negation. -/
def ratNegQ (a : ℚ) : ℚ := mkRat (- a.num) a.den

/-- Rational division (the divisor is nonzero wherever this is used). -/
def ratDiv (a b : ℚ) : ℚ :=
  let n := a.num * (b.den : ℤ)
  let d := (a.den : ℤ) * b.num
  if d < 0 then mkRat (- n) d.natAbs else mkRat n d.natAbs

/-- Rational strict order, as a boolean. -/
def ratLtB (a b : ℚ) : Bool := a.num * (b.den : ℤ) < b.num * (a.den : ℤ)

/-- Rational order, as a boolean. -/
def ratLeB (a b : ℚ) : Bool := a.num * (b.den : ℤ) ≤ b.num * (a.den : ℤ)

/-- Rational equality on normalized representations, as a boolean. -/
def ratEqB (a b : ℚ) : Bool := a.num == b.num ∧ a.den == b.den

/-- JavaScript strict equality on runtime values, as used by the `==` and
`!=` branches of `evaluateBinaryExpression`.  Two lists compare by
reference in the source; distinct evaluations yield distinct references,
so the value model returns `false` for lists. -/
def jsStrictEq : Rv → Rv → Bool
  | .null, .null => true
  | .bool a, .bool b => a == b
  | .num a, .num b => ratEqB a b
  | .str a, .str b => a == b
  | _, _ => false

/-- `isTruthy` of `interpreter.ts`. -/
def isTruthy : Rv → Bool
  | .null => false
  | .bool b => b
  | .num q => q.num != 0
  | .str s => s.length > 0
  | .list xs => xs.length > 0

/-! ## Number formatting (JavaScript `String(n)` on the exact values the
theorems evaluate: integers and rationals with a short terminating
decimal expansion) -/

/-- Decimal digits of the fractional part, by long division; at most
`fuel` digits are produced. -/
def fracDigits : Nat → Nat → Nat → String
  | 0, _, _ => ""
  | fuel + 1, rem, den =>
    let d := rem * 10 / den
    let rem2 := rem * 10 % den
    toString d ++ (if rem2 = 0 then "" else fracDigits fuel rem2 den)

/-- Decimal notation of a nonnegative rational. -/
def ratToStringNN (q : ℚ) : String :=
  let ip := q.num.toNat / q.den
  let rem := q.num.toNat % q.den
  if rem = 0 then toString ip
  else toString ip ++ "." ++ fracDigits 30 rem q.den

/-- JavaScript `String(n)` for a number, on rationals with terminating
decimal expansion (all numbers the concrete theorems print). -/
def ratToString (q : ℚ) : String :=
  if q.num < 0 then "-" ++ ratToStringNN (ratNegQ q) else ratToStringNN q

mutual

/-- `Library.formatValue` of `lib.ts`: null renders as "null", lists as
bracketed comma-joined elements, strings unquoted, numbers and booleans
via `String(...)`. -/
def formatValue : Nat → Rv → String
  | 0, _ => ""
  | _ + 1, .null => "null"
  | fuel + 1, .list xs => "[" ++ formatList fuel xs ++ "]"
  | _ + 1, .str s => s
  | _ + 1, .num q => ratToString q
  | _ + 1, .bool b => if b then "true" else "false"

/-- Comma-joined rendering of list elements for `formatValue`. -/
def formatList : Nat → List Rv → String
  | 0, _ => ""
  | _ + 1, [] => ""
  | fuel + 1, [v] => formatValue fuel v
  | fuel + 1, v :: rest => formatValue fuel v ++ ", " ++ formatList fuel rest

end

/-! ## JavaScript `parseFloat` (for the built-in `toNumber`) -/

/-- Digits read from the front of a character list: their value and count,
with the rest of the input. -/
def readDigits (cs : List Char) : Nat × Nat × List Char :=
  match cs with
  | c :: rest =>
    if c.isDigit then
      let (v, n, rest2) := readDigits rest
      ((c.toNat - 48) * 10 ^ n + v, n + 1, rest2)
    else (0, 0, cs)
  | [] => (0, 0, [])

/-- JavaScript `parseFloat` on a string, exactly for inputs of the shape
an optional sign, digits, an optional point and more digits (the shape
`formatValue` produces); `none` models NaN.  Exponent notation is not
modelled; no theorem feeds it. -/
def parseFloatQ (s : String) : Option ℚ :=
  let cs := s.toList.dropWhile (fun c => c = ' ' ∨ c = '\t' ∨ c = '\n' ∨ c = '\r')
  let (neg, cs) :=
    match cs with
    | '-' :: rest => (true, rest)
    | '+' :: rest => (false, rest)
    | _ => (false, cs)
  let (ip, ipn, cs) := readDigits cs
  let (fp, fpn, _) :=
    match cs with
    | '.' :: rest => readDigits rest
    | _ => (0, 0, ([] : List Char))
  if ipn = 0 ∧ fpn = 0 then none
  else
    let q : ℚ := ratAdd (mkRat ip 1) (mkRat fp (10 ^ fpn))
    some (if neg then ratNegQ q else q)

/-! ## Tokenizer (`tokenizer.ts`, current version) -/

/-- A token's payload: none, a name or type string, or a literal runtime
value (the tokenizer produces number, string and boolean literals). -/
inductive TokVal where
  | none
  | str (s : String)
  | rv (v : Rv)
deriving Repr

/-- A token: a token type with an optional value. -/
structure Token where
  ty : TokenTy
  val : TokVal := .none
deriving Repr

/-- Shorthand for a value-less token. -/
def tok (t : TokenTy) : Token := ⟨t, .none⟩

/-- `isAlpha` of the tokenizer: letters and underscore. -/
def isAlphaC (c : Char) : Bool :=
  (Char.ofNat 97 ≤ c ∧ c ≤ Char.ofNat 122) ∨
  (Char.ofNat 65 ≤ c ∧ c ≤ Char.ofNat 90) ∨ c = '_'

/-- `isDigit` of the tokenizer. -/
def isDigitC (c : Char) : Bool := c.isDigit

/-- Whitespace characters the regex `\s` matches, for the sources here. -/
def isWsC (c : Char) : Bool :=
  c = ' ' ∨ c = '\t' ∨ c = '\n' ∨ c = '\r'

/-- `skipWhitespace` of the current tokenizer: whitespace and // line
comments.  Each step drops at least one character, so the caller's fuel
of input length plus one suffices. -/
def skipWs : Nat → List Char → List Char
  | 0, cs => cs
  | _ + 1, [] => []
  | fuel + 1, c :: rest =>
    if isWsC c then skipWs fuel rest
    else if c = '/' ∧ rest.head? = some '/' then
      skipWs fuel (rest.dropWhile (fun d => d ≠ '\n'))
    else c :: rest

/-- `readWord`: the longest alphanumeric-or-underscore prefix. -/
def readWord (cs : List Char) : String × List Char :=
  let w := cs.takeWhile (fun c => isAlphaC c ∨ isDigitC c)
  (String.mk w, cs.dropWhile (fun c => isAlphaC c ∨ isDigitC c))

/-- Value of a digit string. -/
def digitsVal (ds : List Char) : Nat :=
  ds.foldl (fun a c => a * 10 + (c.toNat - 48)) 0

/-- `readNumber`: an integer, or digits, a point and more digits (the
value an exact `parseFloat` gives). -/
def readNumber (cs : List Char) : ℚ × List Char :=
  let ds := cs.takeWhile isDigitC
  let rest := cs.dropWhile isDigitC
  match rest with
  | '.' :: rest2 =>
    let fs := rest2.takeWhile isDigitC
    let rest3 := rest2.dropWhile isDigitC
    (ratAdd (mkRat (digitsVal ds) 1) (mkRat (digitsVal fs) (10 ^ fs.length)),
     rest3)
  | _ => (mkRat (digitsVal ds) 1, rest)

/-- `readString`: characters up to the closing double quote; an
unterminated literal throws. -/
def readStr (cs : List Char) : Except String (String × List Char) :=
  let body := cs.takeWhile (fun c => c ≠ '"')
  match cs.dropWhile (fun c => c ≠ '"') with
  | _ :: rest => .ok (String.mk body, rest)
  | [] => .error "Unterminated string literal"

/-- `keywordMap` of the current tokenizer (note: no entry for the word
string, and none for a semicolon anywhere in the tokenizer). -/
def keywordTok (w : String) : Option Token :=
  if w = "fn" then some (tok .FN)
  else if w = "let" then some (tok .LET)
  else if w = "const" then some (tok .CONST)
  else if w = "if" then some (tok .IF)
  else if w = "else" then some (tok .ELSE)
  else if w = "while" then some (tok .WHILE)
  else if w = "for" then some (tok .FOR)
  else if w = "of" then some (tok .OF)
  else if w = "in" then some (tok .IN)
  else if w = "true" then some ⟨.VALUE, .rv (.bool true)⟩
  else if w = "false" then some ⟨.VALUE, .rv (.bool false)⟩
  else if w = "void" then some ⟨.TYPE, .str "void"⟩
  else if w = "int" then some ⟨.TYPE, .str "int"⟩
  else if w = "float" then some ⟨.TYPE, .str "float"⟩
  else if w = "bool" then some ⟨.TYPE, .str "bool"⟩
  else if w = "list" then some ⟨.TYPE, .str "list"⟩
  else if w = "return" then some (tok .RETURN)
  else none

/-- `singleCharSymbolMap` of the current tokenizer. -/
def singleCharTok (c : Char) : Option Token :=
  if c = ':' then some (tok .ASSIGN_COLON)
  else if c = '=' then some (tok .ASSIGN_EQUAL)
  else if c = '+' then some (tok .PLUS)
  else if c = '-' then some (tok .MINUS)
  else if c = '*' then some (tok .MULTIPLY)
  else if c = '/' then some (tok .DIVIDE)
  else if c = '%' then some (tok .MOD)
  else if c = '.' then some (tok .DOT)
  else if c = ',' then some (tok .COMMA)
  else if c = '{' then some (tok .SCOPE_OPEN)
  else if c = '}' then some (tok .SCOPE_END)
  else if c = '(' then some (tok .FN_OPEN_PARAM)
  else if c = ')' then some (tok .FN_END_PARAM)
  else if c = '<' then some (tok .LESS_THAN)
  else if c = '>' then some (tok .GREATER_THAN)
  else if c = '[' then some (tok .BRACKET_OPEN)
  else if c = ']' then some (tok .BRACKET_CLOSE)
  else none

/-- `tokenizeSymbol`: two-character operators first, then single-character
symbols; anything else throws. -/
def tokSymbol (c : Char) (rest : List Char) :
    Except String (Token × List Char) :=
  if c = ':' ∧ rest.head? = some '=' then .ok (tok .INFER_TYPE, rest.tail)
  else if c = '<' ∧ rest.head? = some '<' then .ok (tok .LIST_PUSH, rest.tail)
  else if c = '=' ∧ rest.head? = some '=' then .ok (tok .EQUAL_EQUAL, rest.tail)
  else if c = '!' ∧ rest.head? = some '=' then .ok (tok .NOT_EQUAL, rest.tail)
  else if c = '<' ∧ rest.head? = some '=' then .ok (tok .LESS_EQUAL, rest.tail)
  else if c = '>' ∧ rest.head? = some '=' then .ok (tok .GREATER_EQUAL, rest.tail)
  else
    match singleCharTok c with
    | some t => .ok (t, rest)
    | none =>
      if c = '^' then .error "Exponent operator not implemented"
      else .error ("Unexpected symbol " ++ String.mk [c])

/-- The main tokenize loop (`Tokenizer.tokenize`): skip whitespace, then
read a word, a number, a string or a symbol; append EOF at the end. -/
def tokLoop : Nat → List Char → List Token → Except String (List Token)
  | 0, _, _ => .error "tokenizer out of fuel"
  | fuel + 1, cs, acc =>
    match skipWs (cs.length + 1) cs with
    | [] => .ok (acc ++ [tok .EOF])
    | c :: rest =>
      if isAlphaC c then
        let (w, cs2) := readWord (c :: rest)
        match keywordTok w with
        | some t => tokLoop fuel cs2 (acc ++ [t])
        | none => tokLoop fuel cs2 (acc ++ [⟨.VARIABLE, .str w⟩])
      else if isDigitC c then
        let (q, cs2) := readNumber (c :: rest)
        tokLoop fuel cs2 (acc ++ [⟨.VALUE, .rv (.num q)⟩])
      else if c = '"' then
        match readStr rest with
        | .error e => .error e
        | .ok (s, cs2) => tokLoop fuel cs2 (acc ++ [⟨.VALUE, .rv (.str s)⟩])
      else
        match tokSymbol c rest with
        | .error e => .error e
        | .ok (t, cs2) => tokLoop fuel cs2 (acc ++ [t])

/-- `Tokenizer.tokenize` on a source string. -/
def tokenize (src : String) : Except String (List Token) :=
  tokLoop (src.length + 1) src.toList []

/-! ## AST (`types.ts` node interfaces, as the current parser builds them) -/

/-- Expressions: literal, variable, binary expression (operator kept as
its token type, as the parser stores it), function call, list literal,
index access. -/
inductive Expr where
  | lit (v : Rv)
  | var (name : String)
  | bin (op : TokenTy) (left right : Expr)
  | call (callee : Expr) (args : List Expr)
  | listE (elems : List Expr)
  | index (obj idx : Expr)
deriving Repr

/-- Statements.  Block bodies are statement lists (a `BlockStatement` is
its body).  The parser fills `tyAnn` and `init`; `retTy` is the declared
return type. -/
inductive Stmt where
  | varDecl (name : String) (mutb : Bool) (tyAnn : Option Ty) (init : Option Expr)
  | assign (target : String) (value : Expr)
  | exprStmt (e : Expr)
  | block (body : List Stmt)
  | fnDecl (name : String) (params : List (String × Ty)) (retTy : Option Ty)
      (body : List Stmt)
  | listPush (target : Expr) (value : Expr)
  | ret (arg : Option Expr)
  | ifS (cond : Expr) (conseq : List Stmt) (alt : Option (List Stmt))
  | whileS (cond : Expr) (body : List Stmt)
  | forS (v : String) (iter : Expr) (body : List Stmt) (isIdx : Bool)
deriving Repr

/-- A program is its ordered statement list. -/
abbrev Program := List Stmt

/-! ## Parser (`parser.ts`, the current recursive-descent version) -/

/-- `peek`: the current token, or EOF past the end. -/
def peekTok (ts : List Token) : Token := ts.head?.getD (tok .EOF)

/-- `isAtEnd`. -/
def atEnd (ts : List Token) : Bool :=
  match ts with
  | [] => true
  | t :: _ => t.ty = .EOF

/-- `check`: the current token has the given type (never true at end). -/
def checkTok (t : TokenTy) (ts : List Token) : Bool :=
  ¬ atEnd ts ∧ (peekTok ts).ty = t

/-- `consume`: take the current token if it has the expected type, else
throw the given message. -/
def consumeTok (t : TokenTy) (msg : String) (ts : List Token) :
    Except String (Token × List Token) :=
  if checkTok t ts then .ok (peekTok ts, ts.tail) else .error msg

/-- The string payload of a token (`token.value as string`). -/
def tokStr (t : Token) : Except String String :=
  match t.val with
  | .str s => .ok s
  | _ => .error "token value is not a string"

/-- An `Except` bind that threads the remaining tokens. -/
def pbind (r : Except String (α × List Token))
    (f : α → List Token → Except String (β × List Token)) :
    Except String (β × List Token) :=
  match r with
  | .error e => .error e
  | .ok (a, ts) => f a ts

mutual

/-- `Parser.parseStatement`: keyword dispatch, then the
assignment/list-push lookahead, then an expression statement. -/
def parseStatement : Nat → List Token → Except String (Stmt × List Token)
  | 0, _ => .error "parser out of fuel"
  | fuel + 1, ts =>
    if checkTok .LET ts then parseVarDecl fuel true ts.tail
    else if checkTok .CONST ts then parseVarDecl fuel false ts.tail
    else if checkTok .RETURN ts then parseReturnStatement fuel ts.tail
    else if checkTok .FN ts then parseFunctionDeclaration fuel ts.tail
    else if checkTok .IF ts then parseIfStatement fuel ts.tail
    else if checkTok .WHILE ts then parseWhileStatement fuel ts.tail
    else if checkTok .FOR ts then parseForStatement fuel ts.tail
    else if checkTok .SCOPE_OPEN ts then
      pbind (parseBlockStatement fuel ts) fun body ts2 =>
        .ok (.block body, ts2)
    else if checkTok .VARIABLE ts ∧
        (ts.get? 1).map (fun t => t.ty) = some .ASSIGN_EQUAL then
      pbind (consumeTok .VARIABLE "Expected variable name" ts) fun nameT ts2 =>
      pbind (consumeTok .ASSIGN_EQUAL "Expected =" ts2) fun _ ts3 =>
      match tokStr nameT with
      | .error e => .error e
      | .ok name =>
        pbind (parseExpression fuel ts3) fun e ts4 =>
          .ok (.assign name e, ts4)
    else if (checkTok .VARIABLE ts ∨ checkTok .VALUE ts) ∧
        (ts.get? 1).map (fun t => t.ty) = some .LIST_PUSH then
      parseListPushStatement fuel ts
    else if checkTok .VARIABLE ts ∨ checkTok .VALUE ts then
      pbind (parseExpression fuel ts) fun e ts2 =>
        .ok (.exprStmt e, ts2)
    else .error ("Unexpected token " ++ tokenTyName (peekTok ts).ty)

/-- `Parser.parseWhileStatement` (the `while` keyword is consumed). -/
def parseWhileStatement : Nat → List Token →
    Except String (Stmt × List Token)
  | 0, _ => .error "parser out of fuel"
  | fuel + 1, ts =>
    pbind (consumeTok .FN_OPEN_PARAM "Expected ( after while" ts) fun _ ts2 =>
    pbind (parseExpression fuel ts2) fun cond ts3 =>
    pbind (consumeTok .FN_END_PARAM "Expected ) after while condition" ts3)
      fun _ ts4 =>
    pbind (parseBlockStatement fuel ts4) fun body ts5 =>
      .ok (.whileS cond body, ts5)

/-- `Parser.parseForStatement` (the `for` keyword is consumed). -/
def parseForStatement : Nat → List Token →
    Except String (Stmt × List Token)
  | 0, _ => .error "parser out of fuel"
  | fuel + 1, ts =>
    pbind (consumeTok .VARIABLE "Expected variable name after for" ts)
      fun varT ts2 =>
    match tokStr varT with
    | .error e => .error e
    | .ok v =>
      if checkTok .OF ts2 then
        pbind (parseExpression fuel ts2.tail) fun iter ts3 =>
        pbind (parseBlockStatement fuel ts3) fun body ts4 =>
          .ok (.forS v iter body true, ts4)
      else if checkTok .IN ts2 then
        pbind (parseExpression fuel ts2.tail) fun iter ts3 =>
        pbind (parseBlockStatement fuel ts3) fun body ts4 =>
          .ok (.forS v iter body false, ts4)
      else .error "Expected of or in in for loop"

/-- `Parser.parseIfStatement` (the `if` keyword is consumed). -/
def parseIfStatement : Nat → List Token → Except String (Stmt × List Token)
  | 0, _ => .error "parser out of fuel"
  | fuel + 1, ts =>
    pbind (consumeTok .FN_OPEN_PARAM "Expected ( after if" ts) fun _ ts2 =>
    pbind (parseExpression fuel ts2) fun cond ts3 =>
    pbind (consumeTok .FN_END_PARAM "Expected ) after if condition" ts3)
      fun _ ts4 =>
    pbind (parseBlockStatement fuel ts4) fun conseq ts5 =>
      if checkTok .ELSE ts5 then
        pbind (parseBlockStatement fuel ts5.tail) fun alt ts6 =>
          .ok (.ifS cond conseq (some alt), ts6)
      else .ok (.ifS cond conseq none, ts5)

/-- `Parser.parseListPushStatement`. -/
def parseListPushStatement : Nat → List Token →
    Except String (Stmt × List Token)
  | 0, _ => .error "parser out of fuel"
  | fuel + 1, ts =>
    pbind (consumeTok .VARIABLE "Expected list variable" ts) fun tgtT ts2 =>
    match tokStr tgtT with
    | .error e => .error e
    | .ok tgt =>
      pbind (consumeTok .LIST_PUSH "Expected list push operator" ts2)
        fun _ ts3 =>
      pbind (parseExpression fuel ts3) fun v ts4 =>
        .ok (.listPush (.var tgt) v, ts4)

/-- `Parser.parseReturnStatement` (the `return` keyword is consumed): an
argument expression is parsed unconditionally. -/
def parseReturnStatement : Nat → List Token →
    Except String (Stmt × List Token)
  | 0, _ => .error "parser out of fuel"
  | fuel + 1, ts =>
    pbind (parseExpression fuel ts) fun e ts2 =>
      .ok (.ret (some e), ts2)

/-- `Parser.parseVariableDeclaration` (keyword consumed; `mutb` is true
for `let`). -/
def parseVarDecl : Nat → Bool → List Token →
    Except String (Stmt × List Token)
  | 0, _, _ => .error "parser out of fuel"
  | fuel + 1, mutb, ts =>
    pbind (consumeTok .VARIABLE "Expected variable name" ts) fun nameT ts2 =>
    match tokStr nameT with
    | .error e => .error e
    | .ok name =>
      if checkTok .INFER_TYPE ts2 then
        pbind (parseExpression fuel ts2.tail) fun e ts3 =>
          .ok (.varDecl name mutb none (some e), ts3)
      else
        let step :
            Option Ty → List Token → Except String (Stmt × List Token) :=
          fun tyAnn tsx =>
            pbind (consumeTok .ASSIGN_EQUAL "Expected = after type" tsx)
              fun _ ts4 =>
            pbind (parseExpression fuel ts4) fun e ts5 =>
              .ok (.varDecl name mutb tyAnn (some e), ts5)
        if checkTok .ASSIGN_COLON ts2 then
          pbind (consumeTok .TYPE "Expected type after :" ts2.tail)
            fun tyT ts3 =>
          match tokStr tyT with
          | .error e => .error e
          | .ok tyS =>
            match mapTypeToken tyS with
            | .error e => .error e
            | .ok ty => step (some ty) ts3
        else step none ts2

/-- `Parser.parseFunctionDeclaration` (the `fn` keyword is consumed). -/
def parseFunctionDeclaration : Nat → List Token →
    Except String (Stmt × List Token)
  | 0, _ => .error "parser out of fuel"
  | fuel + 1, ts =>
    pbind (consumeTok .VARIABLE "Expected function name" ts) fun nameT ts2 =>
    match tokStr nameT with
    | .error e => .error e
    | .ok name =>
      pbind (consumeTok .FN_OPEN_PARAM "Expected ( after function name" ts2)
        fun _ ts3 =>
      pbind (parseParameterList fuel ts3) fun params ts4 =>
      pbind (consumeTok .FN_END_PARAM "Expected ) after parameters" ts4)
        fun _ ts5 =>
      pbind (consumeTok .ASSIGN_COLON "Expected : before return type" ts5)
        fun _ ts6 =>
      pbind (consumeTok .TYPE "Expected return type after :" ts6)
        fun retT ts7 =>
      match tokStr retT with
      | .error e => .error e
      | .ok retS =>
        match mapTypeToken retS with
        | .error e => .error e
        | .ok retTy =>
          pbind (parseBlockStatement fuel ts7) fun body ts8 =>
            .ok (.fnDecl name params (some retTy) body, ts8)

/-- `Parser.parseParameterList`: empty, or a comma-separated
name-colon-type sequence. -/
def parseParameterList : Nat → List Token →
    Except String (List (String × Ty) × List Token)
  | 0, _ => .error "parser out of fuel"
  | fuel + 1, ts =>
    if checkTok .FN_END_PARAM ts then .ok ([], ts)
    else parseParamsLoop fuel ts

/-- The do-while loop of `parseParameterList`. -/
def parseParamsLoop : Nat → List Token →
    Except String (List (String × Ty) × List Token)
  | 0, _ => .error "parser out of fuel"
  | fuel + 1, ts =>
    pbind (consumeTok .VARIABLE "Expected parameter name" ts) fun nameT ts2 =>
    match tokStr nameT with
    | .error e => .error e
    | .ok name =>
      pbind (consumeTok .ASSIGN_COLON "Expected : after parameter name" ts2)
        fun _ ts3 =>
      pbind (consumeTok .TYPE "Expected parameter type" ts3) fun tyT ts4 =>
      match tokStr tyT with
      | .error e => .error e
      | .ok tyS =>
        match mapTypeToken tyS with
        | .error e => .error e
        | .ok ty =>
          if checkTok .COMMA ts4 then
            pbind (parseParamsLoop fuel ts4.tail) fun rest ts5 =>
              .ok ((name, ty) :: rest, ts5)
          else .ok ([(name, ty)], ts4)

/-- `Parser.parseBlockStatement`: a brace-delimited statement list. -/
def parseBlockStatement : Nat → List Token →
    Except String (List Stmt × List Token)
  | 0, _ => .error "parser out of fuel"
  | fuel + 1, ts =>
    pbind (consumeTok .SCOPE_OPEN "Expected scope open to start block" ts)
      fun _ ts2 =>
    parseBlockBody fuel ts2

/-- The statement loop of `parseBlockStatement`, up to the closing
brace. -/
def parseBlockBody : Nat → List Token →
    Except String (List Stmt × List Token)
  | 0, _ => .error "parser out of fuel"
  | fuel + 1, ts =>
    if ¬ checkTok .SCOPE_END ts ∧ ¬ atEnd ts then
      pbind (parseStatement fuel ts) fun s ts2 =>
      pbind (parseBlockBody fuel ts2) fun rest ts3 =>
        .ok (s :: rest, ts3)
    else
      pbind (consumeTok .SCOPE_END "Expected scope end to close block" ts)
        fun _ ts2 =>
        .ok ([], ts2)

/-- `Parser.parseExpression`. -/
def parseExpression : Nat → List Token → Except String (Expr × List Token)
  | 0, _ => .error "parser out of fuel"
  | fuel + 1, ts =>
    pbind (parsePrimary fuel ts) fun left ts2 =>
      parseBinLoop fuel 0 left ts2

/-- The precedence-climbing loop of `Parser.parseBinaryExpression`: while
the current token has an assigned precedence at least `minPrec`, consume
it and parse its right operand at precedence one higher. -/
def parseBinLoop : Nat → Nat → Expr → List Token →
    Except String (Expr × List Token)
  | 0, _, _, _ => .error "parser out of fuel"
  | fuel + 1, minPrec, left, ts =>
    match PRECEDENCE (peekTok ts).ty with
    | none => .ok (left, ts)
    | some prec =>
      if prec < minPrec then .ok (left, ts)
      else
        pbind (parseBinRhs fuel (prec + 1) ts.tail) fun right ts2 =>
          parseBinLoop fuel minPrec
            (.bin (peekTok ts).ty left right) ts2

/-- The recursive call `parseBinaryExpression(precedence + 1)` for the
right operand. -/
def parseBinRhs : Nat → Nat → List Token →
    Except String (Expr × List Token)
  | 0, _, _ => .error "parser out of fuel"
  | fuel + 1, minPrec, ts =>
    pbind (parsePrimary fuel ts) fun left ts2 =>
      parseBinLoop fuel minPrec left ts2

/-- `Parser.parsePrimary`: a literal, a variable (possibly a call), a
list literal, or a parenthesized expression; a call or list literal is
returned directly, anything else takes index-access suffixes. -/
def parsePrimary : Nat → List Token → Except String (Expr × List Token)
  | 0, _ => .error "parser out of fuel"
  | fuel + 1, ts =>
    match ts with
    | t :: rest =>
      match t.ty with
      | .VALUE =>
        match t.val with
        | .rv v => parseIndexSuffix fuel (.lit v) rest
        | _ => .error "token value is not a literal"
      | .VARIABLE =>
        (match tokStr t with
         | .error e => .error e
         | .ok name =>
           if checkTok .FN_OPEN_PARAM rest then
             parseFunctionCall fuel (.var name) rest
           else parseIndexSuffix fuel (.var name) rest)
      | .BRACKET_OPEN => parseListLiteral fuel ts
      | .FN_OPEN_PARAM =>
        pbind (parseExpression fuel rest) fun e ts2 =>
        pbind (consumeTok .FN_END_PARAM "Expected ) after expression" ts2)
          fun _ ts3 =>
          parseIndexSuffix fuel e ts3
      | ty => .error ("Unexpected token " ++ tokenTyName ty)
    | [] => .error ("Unexpected token " ++ tokenTyName .EOF)

/-- The suffix loop of `Parser.parsePostfixExpression`: zero or more
bracketed index accesses. -/
def parseIndexSuffix : Nat → Expr → List Token →
    Except String (Expr × List Token)
  | 0, _, _ => .error "parser out of fuel"
  | fuel + 1, e, ts =>
    if checkTok .BRACKET_OPEN ts then
      pbind (parseExpression fuel ts.tail) fun idx ts2 =>
      pbind (consumeTok .BRACKET_CLOSE "Expected bracket close after index" ts2)
        fun _ ts3 =>
        parseIndexSuffix fuel (.index e idx) ts3
    else .ok (e, ts)

/-- `Parser.parseListLiteral`. -/
def parseListLiteral : Nat → List Token → Except String (Expr × List Token)
  | 0, _ => .error "parser out of fuel"
  | fuel + 1, ts =>
    pbind (consumeTok .BRACKET_OPEN "Expected bracket open" ts) fun _ ts2 =>
      if checkTok .BRACKET_CLOSE ts2 then .ok (.listE [], ts2.tail)
      else
        pbind (parseArgsLoop fuel ts2) fun elems ts3 =>
        pbind (consumeTok .BRACKET_CLOSE "Expected bracket close" ts3)
          fun _ ts4 =>
          .ok (.listE elems, ts4)

/-- `Parser.parseFunctionCall` on a callee expression. -/
def parseFunctionCall : Nat → Expr → List Token →
    Except String (Expr × List Token)
  | 0, _, _ => .error "parser out of fuel"
  | fuel + 1, callee, ts =>
    pbind (consumeTok .FN_OPEN_PARAM "Expected ( after function call" ts)
      fun _ ts2 =>
      if checkTok .FN_END_PARAM ts2 then .ok (.call callee [], ts2.tail)
      else
        pbind (parseArgsLoop fuel ts2) fun args ts3 =>
        pbind (consumeTok .FN_END_PARAM "Expected ) after function call" ts3)
          fun _ ts4 =>
          .ok (.call callee args, ts4)

/-- The do-while comma loop shared by call arguments and list literal
elements. -/
def parseArgsLoop : Nat → List Token →
    Except String (List Expr × List Token)
  | 0, _ => .error "parser out of fuel"
  | fuel + 1, ts =>
    pbind (parseExpression fuel ts) fun e ts2 =>
      if checkTok .COMMA ts2 then
        pbind (parseArgsLoop fuel ts2.tail) fun rest ts3 =>
          .ok (e :: rest, ts3)
      else .ok ([e], ts2)

end

/-- The statement loop of `Parser.parseProgram`. -/
def parseProgramLoop : Nat → List Token →
    Except String (List Stmt)
  | 0, _ => .error "parser out of fuel"
  | fuel + 1, ts =>
    if atEnd ts then .ok []
    else
      match parseStatement fuel ts with
      | .error e => .error e
      | .ok (s, ts2) =>
        match parseProgramLoop fuel ts2 with
        | .error e => .error e
        | .ok rest => .ok (s :: rest)

/-! ## Post-parse inference pass (`TypeInferrer` and
`Parser.inferTypesInProgram`) -/

/-- Association-list update with JavaScript `Map.set` semantics: replace
in place, or append. -/
def alistSet (m : List (String × α)) (k : String) (v : α) :
    List (String × α) :=
  match m with
  | [] => [(k, v)]
  | (k2, v2) :: rest =>
    if k2 = k then (k2, v) :: rest else (k2, v2) :: alistSet rest k v

/-- Association-list lookup (`Map.get`). -/
def alistGet (m : List (String × α)) (k : String) : Option α :=
  match m with
  | [] => none
  | (k2, v) :: rest => if k2 = k then some v else alistGet rest k

/-- `widerType` of the checker and inferrer: any float wins, with the
larger bit width; two ints take the larger width; otherwise the left
type. -/
def widerType (t1 t2 : Ty) : Ty :=
  match t1, t2 with
  | .float b1, .float b2 => .float (max b1 b2)
  | .float b1, _ => .float (max b1 32)
  | _, .float b2 => .float (max 32 b2)
  | .int b1, .int b2 => .int (max b1 b2)
  | t, _ => t

/-- Whether the operator token is one of the six comparison operators. -/
def isCmpOp (op : TokenTy) : Bool :=
  op = .EQUAL_EQUAL ∨ op = .NOT_EQUAL ∨ op = .LESS_THAN ∨
  op = .LESS_EQUAL ∨ op = .GREATER_THAN ∨ op = .GREATER_EQUAL

/-- Whether the operator token is one of the five arithmetic operators. -/
def isArithOp (op : TokenTy) : Bool :=
  op = .PLUS ∨ op = .MINUS ∨ op = .MULTIPLY ∨ op = .DIVIDE ∨ op = .MOD

/-- `TypeInferrer.inferLiteral`: integer numbers are i32, other numbers
f32. -/
def inferLiteral (v : Rv) : Ty :=
  match v with
  | .null => .void
  | .num q => if q.den = 1 then .int 32 else .float 32
  | .str _ => .string
  | .bool _ => .bool
  | .list _ => .list .void

/-- Built-in return types known to `TypeInferrer.inferFunctionCall`
(note: this table names `stringify`, while the runtime library registers
`toString`). -/
def inferrerBuiltinRet (name : String) : Option Ty :=
  if name = "print" then some .void
  else if name = "len" then some (.int 32)
  else if name = "type" then some .string
  else if name = "stringify" then some .string
  else if name = "toNumber" then some (.int 32)
  else none

/-- Whether a static type is an integer type (`kind === "int"`). -/
def Ty.isInt : Ty → Bool
  | .int _ => true
  | _ => false

/-- `TypeInferrer.inferType` over a scope of variable types and the
top-level function return-type table. -/
def inferType (fnTable : List (String × Ty)) :
    Nat → Expr → List (String × Ty) → Ty
  | 0, _, _ => .void
  | _ + 1, .lit v, _ => inferLiteral v
  | _ + 1, .var n, scope => (alistGet scope n).getD .void
  | fuel + 1, .bin op l r, scope =>
    let lt := inferType fnTable fuel l scope
    let rt := inferType fnTable fuel r scope
    if isCmpOp op then .bool
    else if isArithOp op then
      if op = .DIVIDE ∧ lt.isInt ∧ rt.isInt then lt
      else widerType lt rt
    else .void
  | _ + 1, .call callee _, _ =>
    (match callee with
     | .var name =>
       match inferrerBuiltinRet name with
       | some t => t
       | none => (alistGet fnTable name).getD .void
     | _ => .void)
  | fuel + 1, .listE elems, scope =>
    (match elems with
     | [] => .list .void
     | e :: _ => .list (inferType fnTable fuel e scope))
  | fuel + 1, .index obj _, scope =>
    (match inferType fnTable fuel obj scope with
     | .list el => el
     | _ => .void)

/-- `Parser.inferStatementsTypes`: walk a statement sequence, filling the
missing type of each inferred-form declaration and extending the scope;
block-like statements recurse on a copy of the scope. -/
def inferStmts (fnTable : List (String × Ty)) :
    Nat → List Stmt → List (String × Ty) → List Stmt × List (String × Ty)
  | 0, stmts, scope => (stmts, scope)
  | _ + 1, [], scope => ([], scope)
  | fuel + 1, s :: rest, scope =>
    let (s2, scope2) :=
      match s with
      | .varDecl name mutb tyAnn init =>
        let tyAnn2 :=
          match tyAnn, init with
          | none, some e => some (inferType fnTable fuel e scope)
          | a, _ => a
        let scope2 :=
          match tyAnn2 with
          | some t => alistSet scope name t
          | none => scope
        (Stmt.varDecl name mutb tyAnn2 init, scope2)
      | .block body =>
        (Stmt.block (inferStmts fnTable fuel body scope).1, scope)
      | .ifS cond conseq alt =>
        (Stmt.ifS cond (inferStmts fnTable fuel conseq scope).1
          (alt.map fun a => (inferStmts fnTable fuel a scope).1), scope)
      | .whileS cond body =>
        (Stmt.whileS cond (inferStmts fnTable fuel body scope).1, scope)
      | .forS v iter body isIdx =>
        (Stmt.forS v iter (inferStmts fnTable fuel body scope).1 isIdx, scope)
      | .fnDecl name params retTy body =>
        let funcScope := params.map fun p => (p.1, p.2)
        (Stmt.fnDecl name params retTy
          (inferStmts fnTable fuel body funcScope).1, scope)
      | other => (other, scope)
    let (rest2, scope3) := inferStmts fnTable fuel rest scope2
    (s2 :: rest2, scope3)

/-- `Parser.inferTypesInProgram`: collect top-level function return
types, then fill inferred declaration types. -/
def inferProgram (fuel : Nat) (prog : Program) : Program :=
  let fnTable := prog.foldl
    (fun m s =>
      match s with
      | .fnDecl name _ (some rt) _ => alistSet m name rt
      | _ => m) []
  (inferStmts fnTable fuel prog []).1

/-- `Parser.parseProgram`: the statement loop, then the inference
pass. -/
def parseProgram (fuel : Nat) (ts : List Token) : Except String Program :=
  match parseProgramLoop fuel ts with
  | .error e => .error e
  | .ok body => .ok (inferProgram fuel body)

/-! ## Type checker (`checker.ts`, current version) -/

/-- `typeToString` of the checker. -/
def typeToString : Ty → String
  | .int b => "i" ++ toString b
  | .float b => "f" ++ toString b
  | .bool => "bool"
  | .string => "string"
  | .list e => "list<" ++ typeToString e ++ ">"
  | .void => "void"

/-- `typesMatch` of the checker: kinds must agree; int and float compare
bit widths; two lists are compatible when either element type is void,
else their element types must match. -/
def typesMatch : Ty → Ty → Bool
  | .int b1, .int b2 => b1 == b2
  | .float b1, .float b2 => b1 == b2
  | .list e1, .list e2 =>
    if e1 = .void ∨ e2 = .void then true else typesMatch e1 e2
  | .bool, .bool => true
  | .string, .string => true
  | .void, .void => true
  | _, _ => false

/-- `isNumeric` of the checker. -/
def isNumeric : Ty → Bool
  | .int _ => true
  | .float _ => true
  | _ => false

/-- `checkLiteral` of the checker (identical in content to the
inferrer's literal rule). -/
def checkLiteral (v : Rv) : Ty := inferLiteral v

/-- A function-table entry of the checker: parameters and return type. -/
structure FnSymb where
  params : List (String × Ty)
  retTy : Ty
deriving Repr

/-- The checker's mutable state: the global symbol table, the function
table, the enclosing declared return type, the accumulated error list,
and the stack of block scopes.  A symbol is its type and mutability. -/
structure CSt where
  symbolTable : List (String × Ty × Bool) := []
  functionTable : List (String × FnSymb) := []
  currentRet : Option Ty := none
  errors : List String := []
  scopes : List (List (String × Ty × Bool)) := []
deriving Repr

/-- `error` of the checker: append a message. -/
def cError (st : CSt) (msg : String) : CSt :=
  { st with errors := st.errors ++ [msg] }

/-- `resolveSymbol`: innermost scope outward, then the global table. -/
def resolveSymbol (st : CSt) (name : String) : Option (Ty × Bool) :=
  let rec go : List (List (String × Ty × Bool)) → Option (Ty × Bool)
    | [] => alistGet st.symbolTable name
    | sc :: rest =>
      match alistGet sc name with
      | some s => some s
      | none => go rest
  go st.scopes

/-- `defineSymbol`: reject a duplicate in the current scope and a
shadowing of an outer const; otherwise bind in the current scope (or the
global table when no scope is open).  The innermost scope is the head of
the scope stack here. -/
def defineSymbol (st : CSt) (name : String) (ty : Ty) (mutb : Bool) : CSt :=
  match st.scopes with
  | current :: rest =>
    if (alistGet current name).isSome then
      cError st ("Variable " ++ name ++ " already defined in current scope")
    else
      match resolveSymbol st name with
      | some (_, false) =>
        cError st ("Cannot redeclare const variable " ++ name ++
          " from outer scope")
      | _ =>
        { st with scopes := alistSet current name (ty, mutb) :: rest }
  | [] =>
    if (alistGet st.symbolTable name).isSome then
      cError st ("Variable " ++ name ++ " already defined")
    else { st with symbolTable := alistSet st.symbolTable name (ty, mutb) }

/-- `pushScope`. -/
def cPushScope (st : CSt) : CSt := { st with scopes := [] :: st.scopes }

/-- `popScope`. -/
def cPopScope (st : CSt) : CSt := { st with scopes := st.scopes.tail }

/-- `registerFunction`: insert the declared signature (a duplicate name
silently overwrites, as `Map.set` does). -/
def registerFunction (st : CSt) (name : String)
    (params : List (String × Ty)) (retTy : Option Ty) : CSt :=
  { st with functionTable :=
      alistSet st.functionTable name ⟨params, retTy.getD .void⟩ }

mutual

/-- `checkStatementsWithInference`: first register every declaration of
the sequence, then check each statement in order. -/
def checkStmtsWithInfer : Nat → List Stmt → CSt → CSt
  | 0, _, st => st
  | fuel + 1, stmts, st =>
    let st1 := registerDecls fuel stmts st
    checkStmtList fuel stmts st1

/-- Pass 1 of `checkStatementsWithInference`: register each
`VariableDeclaration` of the sequence. -/
def registerDecls : Nat → List Stmt → CSt → CSt
  | 0, _, st => st
  | _ + 1, [], st => st
  | fuel + 1, s :: rest, st =>
    let st1 :=
      match s with
      | .varDecl name mutb tyAnn init => registerVarDecl fuel name mutb tyAnn init st
      | _ => st
    registerDecls fuel rest st1

/-- `registerVariableDeclaration`: skip when there is no initializer;
use the written type, else infer it; then define the symbol. -/
def registerVarDecl : Nat → String → Bool → Option Ty → Option Expr →
    CSt → CSt
  | 0, _, _, _, _, st => st
  | fuel + 1, name, mutb, tyAnn, init, st =>
    match init with
    | none => st
    | some e =>
      match tyAnn with
      | some t => defineSymbol st name t mutb
      | none =>
        let (t, st1) := inferExprTy fuel e st
        defineSymbol st1 name t mutb

/-- `inferExpressionType` of the checker (distinct from the checker's
`checkExpression`: its function-call rule knows no built-ins, and its
binary rule pushes no operand errors). -/
def inferExprTy : Nat → Expr → CSt → Ty × CSt
  | 0, _, st => (.void, st)
  | _ + 1, .lit v, st => (checkLiteral v, st)
  | fuel + 1, .var n, st => checkVariableTy fuel n st
  | fuel + 1, .bin op l r, st =>
    let (lt, st1) := inferExprTy fuel l st
    let (rt, st2) := inferExprTy fuel r st1
    if isCmpOp op then (.bool, st2)
    else if isArithOp op then
      if op = .DIVIDE ∧ lt.isInt ∧ rt.isInt then (lt, st2)
      else (widerType lt rt, st2)
    else (.void, st2)
  | _ + 1, .call callee _, st =>
    (match callee with
     | .var name =>
       match alistGet st.functionTable name with
       | some f => (f.retTy, st)
       | none => (.void, st)
     | _ => (.void, st))
  | fuel + 1, .listE elems, st =>
    (match elems with
     | [] => (.list .void, st)
     | e :: _ =>
       let (t, st1) := inferExprTy fuel e st
       (.list t, st1))
  | fuel + 1, .index obj _, st =>
    let (t, st1) := inferExprTy fuel obj st
    (match t with
     | .list el => (el, st1)
     | _ => (.void, st1))

/-- `checkVariable`: the resolved symbol's type, or an undefined-variable
error and void. -/
def checkVariableTy : Nat → String → CSt → Ty × CSt
  | _, n, st =>
    match resolveSymbol st n with
    | some (t, _) => (t, st)
    | none => (.void, cError st ("Undefined variable: " ++ n))

/-- Pass 2 of `checkStatementsWithInference`. -/
def checkStmtList : Nat → List Stmt → CSt → CSt
  | 0, _, st => st
  | _ + 1, [], st => st
  | fuel + 1, s :: rest, st => checkStmtList fuel rest (checkStmt fuel s st)

/-- `checkStatement`: dispatch on the statement kind. -/
def checkStmt : Nat → Stmt → CSt → CSt
  | 0, _, st => st
  | fuel + 1, s, st =>
    match s with
    | .varDecl name _ tyAnn init => checkVarDeclStmt fuel name tyAnn init st
    | .exprStmt e => (checkExprTy fuel e st).2
    | .block body => checkBlockStmt fuel body st
    | .fnDecl _ params retTy body => checkFnDecl fuel params retTy body st
    | .listPush tgt v => checkListPushStmt fuel tgt v st
    | .ret arg => checkReturnStmt fuel arg st
    | .ifS cond conseq alt => checkIfStmt fuel cond conseq alt st
    | .whileS cond body => checkWhileStmt fuel cond body st
    | .forS v iter body isIdx => checkForStmt fuel v iter body isIdx st
    | .assign tgt v => checkAssignStmt fuel tgt v st

/-- `checkAssignmentStatement`: the target must resolve, be mutable, and
take a matching value type. -/
def checkAssignStmt : Nat → String → Expr → CSt → CSt
  | 0, _, _, st => st
  | fuel + 1, tgt, v, st =>
    match resolveSymbol st tgt with
    | none => cError st ("Undefined variable: " ++ tgt)
    | some (ty, mutb) =>
      if ¬ mutb then
        cError st ("Cannot assign to immutable variable " ++ tgt)
      else
        let (vt, st1) := checkExprTy fuel v st
        if ¬ typesMatch ty vt then
          cError st1 ("Type mismatch: cannot assign " ++ typeToString vt ++
            " to " ++ typeToString ty)
        else st1

/-- `checkWhileStatement`. -/
def checkWhileStmt : Nat → Expr → List Stmt → CSt → CSt
  | 0, _, _, st => st
  | fuel + 1, cond, body, st =>
    let (ct, st1) := checkExprTy fuel cond st
    let st2 :=
      if ct ≠ .bool then
        cError st1 ("While condition must be boolean, got " ++ typeToString ct)
      else st1
    checkBlockStmt fuel body st2

/-- `checkForStatement`: the iterable must be a list; a scope is pushed
and the loop variable bound immutably (i32 for index form, the element
type otherwise). -/
def checkForStmt : Nat → String → Expr → List Stmt → Bool → CSt → CSt
  | 0, _, _, _, _, st => st
  | fuel + 1, v, iter, body, isIdx, st =>
    let (it, st1) := checkExprTy fuel iter st
    match it with
    | .list elemTy =>
      let st2 := cPushScope st1
      let st3 :=
        if isIdx then defineSymbol st2 v (.int 32) false
        else defineSymbol st2 v elemTy false
      cPopScope (checkBlockStmt fuel body st3)
    | _ =>
      cError st1 ("For loop requires list, got " ++ typeToString it)

/-- `checkIfStatement`. -/
def checkIfStmt : Nat → Expr → List Stmt → Option (List Stmt) → CSt → CSt
  | 0, _, _, _, st => st
  | fuel + 1, cond, conseq, alt, st =>
    let (ct, st1) := checkExprTy fuel cond st
    let st2 :=
      if ct ≠ .bool then
        cError st1 ("If condition must be boolean, got " ++ typeToString ct)
      else st1
    let st3 := checkBlockStmt fuel conseq st2
    match alt with
    | some a => checkBlockStmt fuel a st3
    | none => st3

/-- `checkVariableDeclaration`: an initializer is required; a written
type must match the initializer's type.  (The symbol itself was defined
in pass 1.) -/
def checkVarDeclStmt : Nat → String → Option Ty → Option Expr → CSt → CSt
  | 0, _, _, _, st => st
  | fuel + 1, name, tyAnn, init, st =>
    match init with
    | none => cError st ("Variable " ++ name ++ " must have an initializer")
    | some e =>
      let (it, st1) := checkExprTy fuel e st
      match tyAnn with
      | some t =>
        if ¬ typesMatch t it then
          cError st1 ("Type mismatch for variable " ++ name ++
            ": expected " ++ typeToString t ++ ", got " ++ typeToString it)
        else st1
      | none => st1

/-- `checkBlockStatement`: a fresh scope around the sequence. -/
def checkBlockStmt : Nat → List Stmt → CSt → CSt
  | 0, _, st => st
  | fuel + 1, body, st =>
    cPopScope (checkStmtsWithInfer fuel body (cPushScope st))

/-- `checkFunctionDeclaration`: set the declared return type, push a
scope, bind the parameters immutably, check the body sequence, restore. -/
def checkFnDecl : Nat → List (String × Ty) → Option Ty → List Stmt →
    CSt → CSt
  | 0, _, _, _, st => st
  | fuel + 1, params, retTy, body, st =>
    let prevRet := st.currentRet
    let st1 := cPushScope { st with currentRet := some (retTy.getD .void) }
    let st2 := params.foldl (fun s p => defineSymbol s p.1 p.2 false) st1
    let st3 := cPopScope (checkStmtsWithInfer fuel body st2)
    { st3 with currentRet := prevRet }

/-- `checkListPushStatement`. -/
def checkListPushStmt : Nat → Expr → Expr → CSt → CSt
  | 0, _, _, st => st
  | fuel + 1, tgt, v, st =>
    let (tt, st1) := checkExprTy fuel tgt st
    let (vt, st2) := checkExprTy fuel v st1
    match tt with
    | .list elemTy =>
      let bad :=
        match tgt with
        | .var name =>
          match resolveSymbol st2 name with
          | some (_, false) => some name
          | _ => none
        | _ => none
      match bad with
      | some name =>
        cError st2 ("Cannot modify immutable list " ++ name)
      | none =>
        if elemTy ≠ .void ∧ ¬ typesMatch elemTy vt then
          cError st2 ("Type mismatch in list push: expected " ++
            typeToString elemTy ++ ", got " ++ typeToString vt)
        else st2
    | _ =>
      cError st2 ("Cannot push to non-list type: " ++ typeToString tt)

/-- `checkReturnStatement`: only inside a function; an empty return needs
a void declared type; otherwise the argument must match it. -/
def checkReturnStmt : Nat → Option Expr → CSt → CSt
  | 0, _, st => st
  | fuel + 1, arg, st =>
    match st.currentRet with
    | none => cError st "Return statement outside of function"
    | some retTy =>
      match arg with
      | none =>
        if retTy ≠ .void then
          cError st ("Function expects return value of type " ++
            typeToString retTy ++ ", but got empty return")
        else st
      | some e =>
        let (et, st1) := checkExprTy fuel e st
        if ¬ typesMatch retTy et then
          cError st1 ("Return type mismatch: expected " ++
            typeToString retTy ++ ", got " ++ typeToString et)
        else st1

/-- `checkExpression`: dispatch on the expression kind, yielding its
static type. -/
def checkExprTy : Nat → Expr → CSt → Ty × CSt
  | 0, _, st => (.void, st)
  | fuel + 1, e, st =>
    match e with
    | .lit v => (checkLiteral v, st)
    | .var n => checkVariableTy fuel n st
    | .bin op l r => checkBinExprTy fuel op l r st
    | .call callee args => checkCallTy fuel callee args st
    | .listE elems => checkListExprTy fuel elems st
    | .index obj idx => checkIndexTy fuel obj idx st

/-- `checkListExpression`: an empty literal is list-of-void; otherwise
every element must match the first element's type. -/
def checkListExprTy : Nat → List Expr → CSt → Ty × CSt
  | 0, _, st => (.void, st)
  | fuel + 1, elems, st =>
    match elems with
    | [] => (.list .void, st)
    | first :: _ =>
      let (ft, st1) := checkExprTy fuel first st
      let st2 := checkListElems fuel ft elems st1
      (.list ft, st2)

/-- The element loop of `checkListExpression` (every element, the first
included, is checked once more against the first element's type). -/
def checkListElems : Nat → Ty → List Expr → CSt → CSt
  | 0, _, _, st => st
  | _ + 1, _, [], st => st
  | fuel + 1, ft, e :: rest, st =>
    let (et, st1) := checkExprTy fuel e st
    let st2 :=
      if ¬ typesMatch ft et then
        cError st1 "List elements must all be the same type"
      else st1
    checkListElems fuel ft rest st2

/-- `checkIndexAccess`: the object must be a list, the index an
integer; the result is the element type. -/
def checkIndexTy : Nat → Expr → Expr → CSt → Ty × CSt
  | 0, _, _, st => (.void, st)
  | fuel + 1, obj, idx, st =>
    let (ot, st1) := checkExprTy fuel obj st
    let (it, st2) := checkExprTy fuel idx st1
    match ot with
    | .list elemTy =>
      let st3 :=
        if ¬ it.isInt then
          cError st2 ("Index must be integer, got " ++ typeToString it)
        else st2
      (elemTy, st3)
    | _ =>
      (.void, cError st2 ("Cannot index non-list type: " ++ typeToString ot))

/-- `checkBinaryExpression`: comparisons need numeric sides and give
bool; arithmetic needs numeric sides, with integer division keeping the
left type, otherwise the wider type. -/
def checkBinExprTy : Nat → TokenTy → Expr → Expr → CSt → Ty × CSt
  | 0, _, _, _, st => (.void, st)
  | fuel + 1, op, l, r, st =>
    let (lt, st1) := checkExprTy fuel l st
    let (rt, st2) := checkExprTy fuel r st1
    if isCmpOp op then
      let st3 :=
        if ¬ isNumeric lt ∨ ¬ isNumeric rt then
          cError st2 ("Cannot compare " ++ typeToString lt ++ " and " ++
            typeToString rt)
        else st2
      (.bool, st3)
    else if isArithOp op then
      let st3 :=
        if ¬ isNumeric lt ∨ ¬ isNumeric rt then
          cError st2 ("Cannot perform " ++ tokenTyName op ++ " on " ++
            typeToString lt ++ " and " ++ typeToString rt)
        else st2
      if op = .DIVIDE ∧ lt.isInt ∧ rt.isInt then (lt, st3)
      else (widerType lt rt, st3)
    else (.void, st2)

/-- `checkFunctionCall`: built-ins first (print, len, type, stringify,
toNumber), then the function table with arity and argument checks. -/
def checkCallTy : Nat → Expr → List Expr → CSt → Ty × CSt
  | 0, _, _, st => (.void, st)
  | fuel + 1, callee, args, st =>
    match callee with
    | .var name =>
      if name = "print" ∨ name = "len" ∨ name = "type" ∨
          name = "stringify" ∨ name = "toNumber" then
        checkBuiltInCall fuel name args st
      else
        (match alistGet st.functionTable name with
         | none => (.void, cError st ("Undefined function: " ++ name))
         | some f =>
           if args.length ≠ f.params.length then
             (f.retTy, cError st ("Function " ++ name ++ " expects " ++
               toString f.params.length ++ " arguments, got " ++
               toString args.length))
           else
             (f.retTy, checkArgsLoop fuel name 0 f.params args st))
    | _ => (.void, cError st "Only named functions can be called")

/-- The argument loop of `checkFunctionCall`. -/
def checkArgsLoop : Nat → String → Nat → List (String × Ty) → List Expr →
    CSt → CSt
  | 0, _, _, _, _, st => st
  | fuel + 1, name, i, p :: ps, a :: as_, st =>
    let (at_, st1) := checkExprTy fuel a st
    let st2 :=
      if ¬ typesMatch p.2 at_ then
        cError st1 ("Argument " ++ toString (i + 1) ++
          " type mismatch in call to " ++ name ++ ": expected " ++
          typeToString p.2 ++ ", got " ++ typeToString at_)
      else st1
    checkArgsLoop fuel name (i + 1) ps as_ st2
  | _ + 1, _, _, _, _, st => st

/-- `checkBuiltInFunctionCall` of the checker: print takes anything and
gives void; len takes one string or list and gives i32; type and
stringify take one and give string; toNumber takes one and gives i32. -/
def checkBuiltInCall : Nat → String → List Expr → CSt → Ty × CSt
  | 0, _, _, st => (.void, st)
  | fuel + 1, name, args, st =>
    if name = "print" then (.void, checkAllArgs fuel args st)
    else if name = "len" then
      match args with
      | [a] =>
        let (at_, st1) := checkExprTy fuel a st
        let st2 :=
          match at_ with
          | .string => st1
          | .list _ => st1
          | _ =>
            cError st1 ("len() requires string or list, got " ++
              typeToString at_)
        (.int 32, st2)
      | _ => (.int 32, cError st "len() expects 1 argument")
    else if name = "type" then
      match args with
      | [a] => (.string, (checkExprTy fuel a st).2)
      | _ => (.string, cError st "type() expects 1 argument")
    else if name = "stringify" then
      match args with
      | [a] => (.string, (checkExprTy fuel a st).2)
      | _ => (.string, cError st "stringify() expects 1 argument")
    else if name = "toNumber" then
      match args with
      | [a] => (.int 32, (checkExprTy fuel a st).2)
      | _ => (.int 32, cError st "toNumber() expects 1 argument")
    else (.void, st)

/-- The argument loop of the built-in `print` check. -/
def checkAllArgs : Nat → List Expr → CSt → CSt
  | 0, _, st => st
  | _ + 1, [], st => st
  | fuel + 1, a :: rest, st => checkAllArgs fuel rest (checkExprTy fuel a st).2

end

/-- `TypeChecker.check`: register every top-level function declaration,
then run the inference-and-check pass over the program body; the result
is the ordered error list. -/
def check (fuel : Nat) (prog : Program) : List String :=
  let st0 : CSt := {}
  let st1 := prog.foldl
    (fun st s =>
      match s with
      | .fnDecl name params retTy _ => registerFunction st name params retTy
      | _ => st) st0
  (checkStmtsWithInfer fuel prog st1).errors

/-! ## Evaluator (`interpreter.ts`, current version) and the built-in
`Library` (`lib.ts`) -/

/-- An environment frame: the `variables` map of one `Environment` node;
an entry is a value and its mutability. -/
abbrev Frame := List (String × Rv × Bool)

/-- The environment chain, innermost frame first; the last frame is the
global environment.  The source's `currentEnv` parent links become the
tail of this list. -/
abbrev Env := List Frame

/-- `pushEnvironment`: a fresh frame whose parent is the current
environment. -/
def pushEnv (env : Env) : Env := [] :: env

/-- `popEnvironment`: step to the parent when there is one, else stay. -/
def popEnv : Env → Env
  | _ :: parent :: rest => parent :: rest
  | e => e

/-- `getVariable`: walk the chain innermost outward. -/
def envGet : Env → String → Option Rv
  | [], _ => none
  | f :: rest, n =>
    match alistGet f n with
    | some (v, _) => some v
    | none => envGet rest n

/-- `setVariable`: walk the chain to the first frame holding the name;
an immutable binding throws, a missing one throws. -/
def envSet : Env → String → Rv → Except String Env
  | [], n, _ => .error ("Undefined variable: " ++ n)
  | f :: rest, n, v =>
    match alistGet f n with
    | some (_, mutb) =>
      if mutb then .ok (alistSet f n (v, mutb) :: rest)
      else .error ("Cannot assign to immutable variable " ++ n)
    | none =>
      match envSet rest n v with
      | .error e => .error e
      | .ok rest2 => .ok (f :: rest2)

/-- In-place update of a binding through the chain regardless of its
mutability: the model of mutating a list object through a reference
stored in any frame (list push does not consult the mutable flag). -/
def envSetRaw : Env → String → Rv → Env
  | [], _, _ => []
  | f :: rest, n, v =>
    match alistGet f n with
    | some (_, mutb) => alistSet f n (v, mutb) :: rest
    | none => f :: envSetRaw rest n v

/-- `defineVariable`: bind in the current (innermost) frame; a duplicate
in that frame throws. -/
def envDefine : Env → String → Rv → Bool → Except String Env
  | [], _, _, _ => .error "no environment"
  | f :: rest, n, v, mutb =>
    if (alistGet f n).isSome then
      .error ("Variable " ++ n ++ " already defined in current scope")
    else .ok (alistSet f n (v, mutb) :: rest)

/-- A registered function: parameter names and body statements
(`registerFunction` keeps only the names). -/
structure FnDef where
  params : List String
  body : List Stmt
deriving Repr

/-- The evaluator's state: the environment chain, the function table,
the return signal pair, and the collected stdout lines of `print`.
`retVal = none` models the `undefined` reset value. -/
structure St where
  env : Env := [[]]
  funcs : List (String × FnDef) := []
  retVal : Option Rv := none
  shouldReturn : Bool := false
  output : List String := []
deriving Repr

/-- `Library.isBuiltIn`: the names registered in the `Library`
constructor.  The runtime library registers `toString`, not
`stringify`. -/
def isBuiltIn (name : String) : Bool :=
  name = "print" ∨ name = "len" ∨ name = "type" ∨
  name = "toString" ∨ name = "toNumber"

/-- Truncation toward zero, as JavaScript remainder needs. -/
def ratTrunc (q : ℚ) : ℤ :=
  if 0 ≤ q.num then Int.ofNat (q.num.toNat / q.den)
  else - Int.ofNat ((- q.num).toNat / q.den)


/-- JavaScript remainder `a % b`: the remainder with the dividend's
sign, `a - b * trunc(a / b)`. -/
def jsRem (a b : ℚ) : ℚ :=
  ratSub a (ratMul b (mkRat (ratTrunc (ratDiv a b)) 1))

/-- The pure part of `evaluateBinaryExpression` on the two operand
values: strict equality comparisons on anything, then the numeric
guard, then numeric comparisons and arithmetic with the zero-divisor
checks. -/
def applyBin (op : TokenTy) (l r : Rv) : Except String Rv :=
  if op = .EQUAL_EQUAL then .ok (.bool (jsStrictEq l r))
  else if op = .NOT_EQUAL then .ok (.bool (¬ jsStrictEq l r))
  else
    match l, r with
    | .num a, .num b =>
      if op = .LESS_THAN then .ok (.bool (ratLtB a b))
      else if op = .LESS_EQUAL then .ok (.bool (ratLeB a b))
      else if op = .GREATER_THAN then .ok (.bool (ratLtB b a))
      else if op = .GREATER_EQUAL then .ok (.bool (ratLeB b a))
      else if op = .PLUS then .ok (.num (ratAdd a b))
      else if op = .MINUS then .ok (.num (ratSub a b))
      else if op = .MULTIPLY then .ok (.num (ratMul a b))
      else if op = .DIVIDE then
        if b.num = 0 then .error "Division by zero"
        else .ok (.num (ratDiv a b))
      else if op = .MOD then
        if b.num = 0 then .error "Modulo by zero"
        else .ok (.num (jsRem a b))
      else .error ("Unknown operator: " ++ tokenTyName op)
    | _, _ =>
      .error ("Binary operation requires numeric operands, got " ++
        jsTypeof l ++ " and " ++ jsTypeof r)

/-- JavaScript array read `xs[q]` for a number index: an element for an
integral in-range index, else `undefined` (here `none`). -/
def jsArrGet (xs : List Rv) (q : ℚ) : Option Rv :=
  if q.den = 1 ∧ 0 ≤ q.num ∧ q.num.toNat < xs.length then
    xs.get? q.num.toNat
  else none

/-- The index step of `evaluateIndexAccess` on the two evaluated values:
a non-list object or a non-number index throws; otherwise the element,
with `undefined` collapsed to null by the source's null-coalescing. -/
def jsIndexAccess (obj idx : Rv) : Except String Rv :=
  match obj, idx with
  | .list xs, .num q => .ok ((jsArrGet xs q).getD .null)
  | _, _ => .error "Cannot index non-list or invalid index"

/-- `defineVariable` lifted to the state. -/
def defineWrap (st : St) (n : String) (v : Rv) (mutb : Bool) :
    Except String Unit × St :=
  match envDefine st.env n v mutb with
  | .error e => (.error e, st)
  | .ok env2 => (.ok (), { st with env := env2 })

/-- Parameter binding of `evaluateFunctionCall`: each parameter defined
immutably in the new frame, left to right. -/
def bindParams : List String → List Rv → Env → Except String Env
  | [], _, env => .ok env
  | _ :: _, [], env => .ok env
  | p :: ps, v :: vs, env =>
    match envDefine env p v false with
    | .error e => .error e
    | .ok env2 => bindParams ps vs env2

mutual

/-- `evaluateExpression`: dispatch on the expression kind.  The result
pairs the outcome with the state as left by the evaluation, also when an
exception is thrown. -/
def evalExpr : Nat → Expr → St → Except String Rv × St
  | 0, _, st => (.error "out of fuel", st)
  | fuel + 1, e, st =>
    match e with
    | .lit v => (.ok v, st)
    | .var n =>
      (match envGet st.env n with
       | some v => (.ok v, st)
       | none => (.error ("Undefined variable: " ++ n), st))
    | .bin op l r =>
      (match evalExpr fuel l st with
       | (.error e1, st1) => (.error e1, st1)
       | (.ok lv, st1) =>
         match evalExpr fuel r st1 with
         | (.error e2, st2) => (.error e2, st2)
         | (.ok rv, st2) => (applyBin op lv rv, st2))
    | .call callee args =>
      (match callee with
       | .var fname =>
         if isBuiltIn fname then libCall fuel fname args st
         else evalUserCall fuel fname args st
       | _ => (.error "Only named functions can be called", st))
    | .listE elems =>
      (match evalExprs fuel elems st with
       | (.error e1, st1) => (.error e1, st1)
       | (.ok vs, st1) => (.ok (.list vs), st1))
    | .index obj idx =>
      (match evalExpr fuel obj st with
       | (.error e1, st1) => (.error e1, st1)
       | (.ok ov, st1) =>
         match evalExpr fuel idx st1 with
         | (.error e2, st2) => (.error e2, st2)
         | (.ok iv, st2) => (jsIndexAccess ov iv, st2))

/-- Left-to-right evaluation of an expression list (call arguments and
list literal elements). -/
def evalExprs : Nat → List Expr → St → Except String (List Rv) × St
  | 0, _, st => (.error "out of fuel", st)
  | _ + 1, [], st => (.ok [], st)
  | fuel + 1, e :: rest, st =>
    match evalExpr fuel e st with
    | (.error e1, st1) => (.error e1, st1)
    | (.ok v, st1) =>
      match evalExprs fuel rest st1 with
      | (.error e2, st2) => (.error e2, st2)
      | (.ok vs, st2) => (.ok (v :: vs), st2)

/-- `Library.call` dispatch: print, len, type, toString, toNumber, each
evaluating its argument expressions through the interpreter. -/
def libCall : Nat → String → List Expr → St → Except String Rv × St
  | 0, _, _, st => (.error "out of fuel", st)
  | fuel + 1, name, args, st =>
    if name = "print" then
      match evalExprs fuel args st with
      | (.error e1, st1) => (.error e1, st1)
      | (.ok vs, st1) =>
        let line := String.intercalate " " (vs.map (formatValue 100))
        (.ok .null, { st1 with output := st1.output ++ [line] })
    else if name = "len" then
      match args with
      | [a] =>
        (match evalExpr fuel a st with
         | (.error e1, st1) => (.error e1, st1)
         | (.ok v, st1) =>
           match v with
           | .str s => (.ok (.num (mkRat s.length 1)), st1)
           | .list xs => (.ok (.num (mkRat xs.length 1)), st1)
           | _ =>
             (.error ("len() requires string or array, got " ++ jsTypeof v),
              st1))
      | _ => (.error "len() expects 1 argument", st)
    else if name = "type" then
      match args with
      | [a] =>
        (match evalExpr fuel a st with
         | (.error e1, st1) => (.error e1, st1)
         | (.ok v, st1) =>
           match v with
           | .null => (.ok (.str "null"), st1)
           | .list _ => (.ok (.str "array"), st1)
           | other => (.ok (.str (jsTypeof other)), st1))
      | _ => (.error "type() expects 1 argument", st)
    else if name = "toString" then
      match args with
      | [a] =>
        (match evalExpr fuel a st with
         | (.error e1, st1) => (.error e1, st1)
         | (.ok v, st1) => (.ok (.str (formatValue 100 v)), st1))
      | _ => (.error "toString() expects 1 argument", st)
    else if name = "toNumber" then
      match args with
      | [a] =>
        (match evalExpr fuel a st with
         | (.error e1, st1) => (.error e1, st1)
         | (.ok v, st1) =>
           match v with
           | .num q => (.ok (.num q), st1)
           | .str s =>
             (match parseFloatQ s with
              | some q => (.ok (.num q), st1)
              | none =>
                (.error ("Cannot convert " ++ s ++ " to number"), st1))
           | .bool b => (.ok (.num (mkRat (if b then 1 else 0) 1)), st1)
           | other =>
             (.error ("Cannot convert " ++ jsTypeof other ++ " to number"),
              st1))
      | _ => (.error "toNumber() expects 1 argument", st)
    else (.error ("Unknown built-in function: " ++ name), st)

/-- `evaluateFunctionCall` for a user function: arity check, argument
evaluation, a new environment pushed onto the current one, immutable
parameter bindings, save and reset of the return signal, body execution,
result extraction, restore, pop.  A thrown error propagates without the
restore and pop. -/
def evalUserCall : Nat → String → List Expr → St → Except String Rv × St
  | 0, _, _, st => (.error "out of fuel", st)
  | fuel + 1, fname, args, st =>
    match alistGet st.funcs fname with
    | none => (.error ("Undefined function: " ++ fname), st)
    | some f =>
      if args.length ≠ f.params.length then
        (.error ("Function " ++ fname ++ " expects " ++
          toString f.params.length ++ " arguments, got " ++
          toString args.length), st)
      else
        match evalExprs fuel args st with
        | (.error e1, st1) => (.error e1, st1)
        | (.ok vs, st1) =>
          match bindParams f.params vs (pushEnv st1.env) with
          | .error e2 => (.error e2, { st1 with env := pushEnv st1.env })
          | .ok env3 =>
            match execBlock fuel f.body
                { st1 with
                  env := env3
                  shouldReturn := false
                  retVal := none } with
            | (.error e3, st5) => (.error e3, st5)
            | (.ok _, st5) =>
              (.ok (st5.retVal.getD .null),
               { st5 with
                 shouldReturn := st1.shouldReturn
                 retVal := st1.retVal
                 env := popEnv st5.env })

/-- `executeStatement`: dispatch on the statement kind. -/
def execStmt : Nat → Stmt → St → Except String Unit × St
  | 0, _, st => (.error "out of fuel", st)
  | fuel + 1, s, st =>
    match s with
    | .varDecl name mutb _ init =>
      (match init with
       | none => defineWrap st name .null mutb
       | some e =>
         match evalExpr fuel e st with
         | (.error e1, st1) => (.error e1, st1)
         | (.ok v, st1) => defineWrap st1 name v mutb)
    | .assign tgt e =>
      (match evalExpr fuel e st with
       | (.error e1, st1) => (.error e1, st1)
       | (.ok v, st1) =>
         match envSet st1.env tgt v with
         | .error e2 => (.error e2, st1)
         | .ok env2 => (.ok (), { st1 with env := env2 }))
    | .exprStmt e =>
      (match evalExpr fuel e st with
       | (.error e1, st1) => (.error e1, st1)
       | (.ok _, st1) => (.ok (), st1))
    | .block body => execBlock fuel body st
    | .fnDecl _ _ _ _ => (.ok (), st)
    | .listPush tgt v =>
      (match evalExpr fuel tgt st with
       | (.error e1, st1) => (.error e1, st1)
       | (.ok tv, st1) =>
         match evalExpr fuel v st1 with
         | (.error e2, st2) => (.error e2, st2)
         | (.ok vv, st2) =>
           match tv with
           | .list xs =>
             let newList : Rv :=
               match vv with
               | .list ys => .list (xs ++ ys)
               | other => .list (xs ++ [other])
             (match tgt with
              | .var n => (.ok (), { st2 with env := envSetRaw st2.env n newList })
              | _ => (.ok (), st2))
           | other =>
             (.error ("Cannot push to non-list type: " ++ jsTypeof other),
              st2))
    | .ret arg =>
      (match arg with
       | some e =>
         match evalExpr fuel e st with
         | (.error e1, st1) => (.error e1, st1)
         | (.ok v, st1) =>
           (.ok (), { st1 with retVal := some v, shouldReturn := true })
       | none => (.ok (), { st with retVal := none, shouldReturn := true }))
    | .ifS cond conseq alt =>
      (match evalExpr fuel cond st with
       | (.error e1, st1) => (.error e1, st1)
       | (.ok cv, st1) =>
         if isTruthy cv then execBlock fuel conseq st1
         else
           match alt with
           | some a => execBlock fuel a st1
           | none => (.ok (), st1))
    | .whileS cond body => execWhile fuel cond body st
    | .forS v iter body isIdx =>
      (match evalExpr fuel iter st with
       | (.error e1, st1) => (.error e1, st1)
       | (.ok iv, st1) =>
         match iv with
         | .list xs =>
           let items :=
             if isIdx then
               (List.range xs.length).map (fun i => Rv.num (mkRat i 1))
             else xs
           execForItems fuel v items body st1
         | _ => (.error "For loop requires a list", st1))

/-- The loop of `executeWhileStatement`: evaluate the condition, stop
when falsy, run the body as a block, stop on `shouldReturn`. -/
def execWhile : Nat → Expr → List Stmt → St → Except String Unit × St
  | 0, _, _, st => (.error "out of fuel", st)
  | fuel + 1, cond, body, st =>
    match evalExpr fuel cond st with
    | (.error e1, st1) => (.error e1, st1)
    | (.ok cv, st1) =>
      if ¬ isTruthy cv then (.ok (), st1)
      else
        match execBlock fuel body st1 with
        | (.error e2, st2) => (.error e2, st2)
        | (.ok _, st2) =>
          if st2.shouldReturn then (.ok (), st2)
          else execWhile fuel cond body st2

/-- The per-item loop of `executeForStatement`: a fresh environment per
iteration with the loop variable bound immutably; `shouldReturn` breaks
the loop. -/
def execForItems : Nat → String → List Rv → List Stmt → St →
    Except String Unit × St
  | 0, _, _, _, st => (.error "out of fuel", st)
  | _ + 1, _, [], _, st => (.ok (), st)
  | fuel + 1, v, item :: rest, body, st =>
    match envDefine (pushEnv st.env) v item false with
    | .error e1 => (.error e1, { st with env := pushEnv st.env })
    | .ok env2 =>
      match execBlock fuel body { st with env := env2 } with
      | (.error e2, st2) => (.error e2, st2)
      | (.ok _, st2) =>
        if st2.shouldReturn then (.ok (), { st2 with env := popEnv st2.env })
        else execForItems fuel v rest body { st2 with env := popEnv st2.env }

/-- The statement loop shared by `executeBlockStatement`: run each
statement, breaking on `shouldReturn`. -/
def execSeq : Nat → List Stmt → St → Except String Unit × St
  | 0, _, st => (.error "out of fuel", st)
  | _ + 1, [], st => (.ok (), st)
  | fuel + 1, s :: rest, st =>
    match execStmt fuel s st with
    | (.error e1, st1) => (.error e1, st1)
    | (.ok _, st1) =>
      if st1.shouldReturn then (.ok (), st1)
      else execSeq fuel rest st1

/-- `executeBlockStatement`: push an environment, run the body, pop.  A
thrown error propagates without the pop. -/
def execBlock : Nat → List Stmt → St → Except String Unit × St
  | 0, _, st => (.error "out of fuel", st)
  | fuel + 1, body, st =>
    match execSeq fuel body { st with env := pushEnv st.env } with
    | (.error e1, st1) => (.error e1, st1)
    | (.ok _, st1) => (.ok (), { st1 with env := popEnv st1.env })

end

/-- `registerFunction` over the program body (pass 1 of `execute`):
parameter names and body of every function declaration, later
declarations overwriting earlier ones of the same name. -/
def registerFns (prog : Program) (st : St) : St :=
  prog.foldl
    (fun s stmt =>
      match stmt with
      | .fnDecl name params _ body =>
        { s with funcs := alistSet s.funcs name ⟨params.map (·.1), body⟩ }
      | _ => s) st

/-- Whether a statement is a function declaration. -/
def Stmt.isFnDecl : Stmt → Bool
  | .fnDecl _ _ _ _ => true
  | _ => false

/-- Whether a statement is an expression statement. -/
def Stmt.isExprStmt : Stmt → Bool
  | .exprStmt _ => true
  | _ => false

/-- Pass 2 of `execute`: run the top-level statements in order, skipping
function declarations and expression statements inline, breaking on
`shouldReturn`. -/
def execGlobals (fuel : Nat) : List Stmt → St → Except String Unit × St
  | [], st => (.ok (), st)
  | s :: rest, st =>
    if s.isFnDecl ∨ s.isExprStmt then execGlobals fuel rest st
    else
      match execStmt fuel s st with
      | (.error e1, st1) => (.error e1, st1)
      | (.ok _, st1) =>
        if st1.shouldReturn then (.ok (), st1)
        else execGlobals fuel rest st1

/-- Pass 3 of `execute`: when a function named main is registered, reset
the return signal, push an environment, run its body as a block, pop. -/
def execMain (fuel : Nat) (st : St) : Except String Unit × St :=
  match alistGet st.funcs "main" with
  | none => (.ok (), st)
  | some f =>
    let st1 : St :=
      { st with
        shouldReturn := false
        retVal := none
        env := pushEnv st.env }
    match execBlock fuel f.body st1 with
    | (.error e1, st2) => (.error e1, st2)
    | (.ok _, st2) => (.ok (), { st2 with env := popEnv st2.env })

/-- `Interpreter.execute`: register functions, run the globals with the
inline skip, then main. -/
def execute (fuel : Nat) (prog : Program) (st : St) :
    Except String Unit × St :=
  let st1 := registerFns prog st
  match execGlobals fuel prog st1 with
  | (.error e1, st2) => (.error e1, st2)
  | (.ok _, st2) => execMain fuel st2

/-- A plain sequential top-level runner with the `shouldReturn` break
(no skipping). -/
def execTopSeq (fuel : Nat) : List Stmt → St → Except String Unit × St
  | [], st => (.ok (), st)
  | s :: rest, st =>
    match execStmt fuel s st with
    | (.error e1, st1) => (.error e1, st1)
    | (.ok _, st1) =>
      if st1.shouldReturn then (.ok (), st1)
      else execTopSeq fuel rest st1

/-- Pass 2 as the specification words it: the top-level statements with
every function declaration and expression statement removed, run in
order. -/
def execGlobalsSpec (fuel : Nat) (prog : Program) (st : St) :
    Except String Unit × St :=
  execTopSeq fuel (prog.filter fun s => ¬ s.isFnDecl ∧ ¬ s.isExprStmt) st

/-- `execute` as the specification words it: register every function
declaration; execute every top-level statement except function
declarations and expression statements; then, if main is registered,
push an environment, execute its body as a block, pop. -/
def executeSpec (fuel : Nat) (prog : Program) (st : St) :
    Except String Unit × St :=
  let st1 := registerFns prog st
  match execGlobalsSpec fuel prog st1 with
  | (.error e1, st2) => (.error e1, st2)
  | (.ok _, st2) => execMain fuel st2

/-! ## The CLI driver (`main.ts` of the repository root directory),
modelled for the pipeline outcomes the claims name -/

/-- The observable outcome of a run: the exit code, the type errors the
checker printed, and the stdout lines the built-in print produced. -/
structure RunOut where
  exit : Nat
  errs : List String
  out : List String
deriving Repr

/-- The driver: tokenize, parse, check; on a non-empty error list print
the errors and exit 1 without evaluating; otherwise execute, exiting 0
on success and 1 on a thrown error (tokenizer and parser throws reach
the top-level catch, also exiting 1). -/
def runMain (fuel : Nat) (src : String) : RunOut :=
  match tokenize src with
  | .error _ => ⟨1, [], []⟩
  | .ok ts =>
    match parseProgram fuel ts with
    | .error _ => ⟨1, [], []⟩
    | .ok prog =>
      let errs := check fuel prog
      if errs ≠ [] then ⟨1, errs, []⟩
      else
        match execute fuel prog {} with
        | (.ok _, st) => ⟨0, [], st.output⟩
        | (.error _, st) => ⟨1, [], st.output⟩

/-- The tokenize-then-parse front half of the driver, exposing the parse
outcome. -/
def runParse (fuel : Nat) (src : String) : Except String Program :=
  match tokenize src with
  | .error e => .error e
  | .ok ts => parseProgram fuel ts

/-- The thrown-error view of a full run: the tokenizer's, parser's or
evaluator's exception, with type checking skipped (used to name the
exact runtime error of a program the checker accepts). -/
def runExec (fuel : Nat) (src : String) : Except String Unit :=
  match tokenize src with
  | .error e => .error e
  | .ok ts =>
    match parseProgram fuel ts with
    | .error e => .error e
    | .ok p => (execute fuel p {}).1

/-! ## The concrete programs the claims name -/

/-- The if/else scenario program, exactly as the specification writes
it (with the semicolon). -/
def ifElseSrc : String :=
  "fn main():void \x7b let s := \"hi\"; if (s == \"hi\") \x7b print(1) \x7d else \x7b print(0) \x7d \x7d"

/-- The if/else scenario program with the semicolon removed (the
tokenizer has no semicolon symbol). -/
def ifElseSrcB : String :=
  "fn main():void \x7b let s := \"hi\" if (s == \"hi\") \x7b print(1) \x7d else \x7b print(0) \x7d \x7d"

/-- The integer-division scenario program. -/
def divSrc : String := "fn main():void { print(7 / 2) }"

/-- A program whose only expression is the stringify/toNumber round
trip the specification claims. -/
def roundTripSrc : String := "fn main():void { print(toNumber(stringify(5))) }"

/-- The mutability-violation scenario program, exactly as the
specification writes it. -/
def constAssignSrc : String := "fn main():void { const k := 1; k = 2 }"

/-- The mutability-violation program with the semicolon removed. -/
def constAssignSrcB : String := "fn main():void { const k := 1 k = 2 }"

/-- The arithmetic scenario program, exactly as the specification
writes it. -/
def arithSrc : String := "fn main():void { let x := 2 + 3 * 4; print(x) }"

/-- The arithmetic program with the semicolon removed. -/
def arithSrcB : String := "fn main():void { let x := 2 + 3 * 4 print(x) }"

/-- A function body with a bare return. -/
def bareReturnSrc : String := "fn f():void { return }"

/-- A program whose callee body reads a name that is only a local of
the caller: `f` returns `x`, and main declares `x` before calling
`f`. -/
def dynScopeProg : Program :=
  [ .fnDecl "f" [] (some .void) [ .ret (some (.var "x")) ],
    .fnDecl "main" [] (some .void)
      [ .varDecl "x" true (some (.int 32)) (some (.lit (.num (mkRat 1 1)))),
        .exprStmt (.call (.var "print") [ .call (.var "f") [] ]) ] ]

/-! ## Claim theorems -/

/-- C1.  The pipeline does not run the if/else scenario.  On the exact
program text the tokenizer throws at the semicolon (it has no semicolon
symbol), so the run exits 1 with no output; and even with the semicolon
removed, the parser never consumes the comparison `==`: `PRECEDENCE`
assigns the comparison operators no precedence, so the condition parse
stops at `s` and the parser aborts expecting the closing parenthesis.
No BinaryExpression for `==` is ever produced and nothing is printed,
against the claimed stdout `1`. -/
theorem claim_C1_comparison_unparsed :
    tokenize ifElseSrc = .error "Unexpected symbol ;" ∧
    runMain 1000 ifElseSrc = ⟨1, [], []⟩ ∧
    runParse 1000 ifElseSrcB = .error "Expected ) after if condition" ∧
    runMain 1000 ifElseSrcB = ⟨1, [], []⟩ ∧
    PRECEDENCE .EQUAL_EQUAL = none :=
  ⟨rfl, rfl, rfl, rfl, rfl⟩

/-- C3.  The integer-division scenario runs, but prints `3.5`, not `3`:
the checker types `7 / 2` as an integer, while the evaluator divides
with JavaScript true division, so the printed value is the exact
rational seven halves. -/
theorem claim_C3_division_prints_three_point_five :
    runMain 1000 divSrc = ⟨0, [], ["3.5"]⟩ ∧
    check 1000 [ .fnDecl "main" [] (some .void)
      [ .exprStmt (.call (.var "print")
          [ .bin .DIVIDE (.lit (.num (mkRat 7 1))) (.lit (.num (mkRat 2 1))) ]) ] ]
      = [] ∧
    applyBin .DIVIDE (.num (mkRat 7 1)) (.num (mkRat 2 1))
      = .ok (.num (mkRat 7 2)) :=
  ⟨rfl, rfl, rfl⟩

/-- C4.  The round trip `toNumber(stringify(n))` never succeeds at
runtime: the checker accepts `stringify` as a built-in, but the runtime
`Library` registers `toString` instead, so evaluation throws an
undefined-function error (shown at `n = 5`: the checker reports no
errors, the run exits 1 with no output, and the thrown error names
`stringify`).  The round trip through the name the library does
register works at the evaluator level: `toNumber(toString(5))` yields
`5`. -/
theorem claim_C4_stringify_not_registered :
    runMain 1000 roundTripSrc = ⟨1, [], []⟩ ∧
    runExec 1000 roundTripSrc = .error "Undefined function: stringify" ∧
    isBuiltIn "stringify" = false ∧
    isBuiltIn "toString" = true ∧
    (evalExpr 50 (.call (.var "toNumber")
        [ .call (.var "toString") [ .lit (.num (mkRat 5 1)) ] ]) {}).1
      = .ok (.num (mkRat 5 1)) :=
  ⟨rfl, rfl, rfl, rfl, rfl⟩

/-- C6 counterexample.  On the exact mutability-violation program text
the tokenizer throws at the semicolon, so the type checker never runs
and no error list mentioning `immutable` is produced (the run still
exits 1, but with an empty checker error list). -/
theorem claim_C6_semicolon_rejected :
    tokenize constAssignSrc = .error "Unexpected symbol ;" ∧
    runMain 1000 constAssignSrc = ⟨1, [], []⟩ :=
  ⟨rfl, rfl⟩

/-- C6 as amended.  With the semicolon dropped, the checker rejects the
assignment to the const binding with a message naming `immutable` and
`k`, the body is never evaluated (no stdout), and the driver exits 1. -/
theorem claim_C6_immutable_assignment_rejected :
    runMain 1000 constAssignSrcB
      = ⟨1, ["Cannot assign to immutable variable k"], []⟩ :=
  rfl

/-- C9 counterexample.  On the exact arithmetic scenario text the
tokenizer throws at the semicolon: the run exits 1 and nothing (in
particular not `14`) is printed. -/
theorem claim_C9_semicolon_rejected :
    tokenize arithSrc = .error "Unexpected symbol ;" ∧
    runMain 1000 arithSrc = ⟨1, [], []⟩ :=
  ⟨rfl, rfl⟩

/-- C9 as amended.  With the semicolon dropped, the pipeline runs and
prints exactly `14`; the parse tree of the initializer is
`2 + (3 * 4)`, the multiplication binding tighter per `PRECEDENCE`. -/
theorem claim_C9_precedence_pipeline :
    runMain 1000 arithSrcB = ⟨0, [], ["14"]⟩ ∧
    runParse 1000 arithSrcB = .ok
      [ .fnDecl "main" [] (some .void)
        [ .varDecl "x" true (some (.int 32))
            (some (.bin .PLUS (.lit (.num (mkRat 2 1)))
              (.bin .MULTIPLY (.lit (.num (mkRat 3 1)))
                (.lit (.num (mkRat 4 1)))))),
          .exprStmt (.call (.var "print") [ .var "x" ]) ] ] :=
  ⟨rfl, rfl⟩

/-- C2 counterexample.  Calling `f` (whose body returns `x`) from a
`main` that declares a local `x := 1` prints `1`: the callee resolved
`x` to the caller's local binding, which the claim says can never
happen.  Were the callee's environment parented to the global root, the
lookup of `x` would have thrown an undefined-variable error instead. -/
theorem claim_C2_callee_sees_caller_local :
    (execute 1000 dynScopeProg {}).1 = .ok () ∧
    (execute 1000 dynScopeProg {}).2.output = ["1"] :=
  ⟨rfl, rfl⟩

/-- C5 counterexample.  A block whose body throws (here: an undefined
variable) exits with the environment chain one frame deeper than it
entered: the pop is skipped on the exception path, so the depth after
the statement is 2 while it was 1 before. -/
theorem claim_C5_error_unwind_leaks_frame :
    (execStmt 10 (.block [ .exprStmt (.var "nope") ]) {}).1
      = .error "Undefined variable: nope" ∧
    (execStmt 10 (.block [ .exprStmt (.var "nope") ]) {}).2.env.length = 2 ∧
    (({} : St)).env.length = 1 :=
  ⟨rfl, rfl, rfl⟩

/-- C7 counterexample.  Indexing the list `[42]` with the non-integer
number one half raises no error and yields null, though the claim
requires a runtime error whenever the index value is not an integer. -/
theorem claim_C7_fractional_index_yields_null :
    evalExpr 10 (.index (.listE [ .lit (.num (mkRat 42 1)) ])
        (.lit (.num (mkRat 1 2)))) {}
      = (.ok .null, {}) :=
  rfl

/-- C10.  A RETURN token immediately followed by a SCOPE_END token is a
parse error for every continuation of the token stream:
`parseReturnStatement` unconditionally parses an expression, and the
primary parser rejects SCOPE_END.  On whole source text, the body
`fn f():void { return }` is likewise rejected. -/
theorem claim_C10_bare_return_unparseable :
    (∀ (n : Nat) (rest : List Token),
      parseStatement (n + 5) (tok .RETURN :: tok .SCOPE_END :: rest)
        = .error "Unexpected token SCOPE_END") ∧
    runParse 1000 bareReturnSrc = .error "Unexpected token SCOPE_END" :=
  ⟨fun _ _ => rfl, rfl⟩

/-- C2 as amended.  The evaluator parents a call frame to the current
environment, not the global root: a name looked up in a freshly pushed
frame resolves exactly as in the environment below it, and calling a
parameterless function whose body returns `x` yields whatever `x` holds
in the caller's environment chain at call time (dynamic-scope-like
lookup); the state is left untouched on success. -/
theorem claim_C2_dynamic_parent_resolution :
    (∀ (env : Env) (nm : String), envGet (pushEnv env) nm = envGet env nm) ∧
    (∀ (n : Nat) (fname x : String) (st : St) (v : Rv),
      isBuiltIn fname = false →
      alistGet st.funcs fname = some ⟨[], [ .ret (some (.var x)) ]⟩ →
      envGet st.env x = some v →
      evalExpr (n + 6) (.call (.var fname) []) st = (.ok v, st)) := by
  constructor
  · intro env nm; rfl
  · intro n fname x st v h1 h2 h3
    obtain ⟨env, funcs, rv, sr, out⟩ := st
    cases env with
    | nil => exact absurd h3 (by simp [envGet])
    | cons f r =>
      simp only [evalExpr, evalUserCall, evalExprs, execBlock, execSeq,
        execStmt, h1, h2, h3, Bool.false_eq_true, if_false, if_true,
        List.length_nil, ne_eq, not_true_eq_false, bindParams, pushEnv,
        popEnv, envGet, alistGet, Option.getD_some] at h3 ⊢
      simp [evalUserCall, h2, evalExprs, execBlock, execSeq, execStmt, h3,
        bindParams, envGet, alistGet]

/-- Witness for the amended C2 at a concrete state: the caller holds a
local `x := 1` in its innermost frame, `f` is registered with body
`return x`, and the call returns 1 leaving the state unchanged. -/
theorem claim_C2_dynamic_parent_resolution_witness :
    evalExpr 6
      (.call (.var "f") [])
      { env := [ [("x", (.num (mkRat 1 1), true))], [] ],
        funcs := [("f", ⟨[], [ .ret (some (.var "x")) ]⟩)] }
      = (.ok (.num (mkRat 1 1)),
         { env := [ [("x", (.num (mkRat 1 1), true))], [] ],
           funcs := [("f", ⟨[], [ .ret (some (.var "x")) ]⟩)] }) :=
  claim_C2_dynamic_parent_resolution.2 0 "f" "x"
    { env := [ [("x", (.num (mkRat 1 1), true))], [] ],
      funcs := [("f", ⟨[], [ .ret (some (.var "x")) ]⟩)] }
    (.num (mkRat 1 1)) rfl rfl rfl

/-- C7 as amended.  Index evaluation raises a runtime error exactly when
the object value is not a list or the index value is not a number; a
list indexed by any number raises no error, and an index that is not an
integral position within range (a fractional number, a negative one, or
one at least the length) yields null. -/
theorem claim_C7_index_error_characterization :
    (∀ (n : Nat) (o i : Expr) (st st1 st2 : St) (lv iv : Rv),
      evalExpr n o st = (.ok lv, st1) →
      evalExpr n i st1 = (.ok iv, st2) →
      evalExpr (n + 1) (.index o i) st = (jsIndexAccess lv iv, st2)) ∧
    (∀ (xs : List Rv) (q : ℚ),
      jsIndexAccess (.list xs) (.num q) = .ok ((jsArrGet xs q).getD .null)) ∧
    (∀ (lv iv : Rv), ((∀ xs, lv ≠ .list xs) ∨ (∀ q, iv ≠ .num q)) →
      jsIndexAccess lv iv = .error "Cannot index non-list or invalid index") ∧
    (∀ (xs : List Rv) (q : ℚ),
      ¬ (q.den = 1 ∧ 0 ≤ q.num ∧ q.num.toNat < xs.length) →
      jsArrGet xs q = none) := by
  refine ⟨?_, ?_, ?_, ?_⟩
  · intro n o i st st1 st2 lv iv h1 h2
    simp only [evalExpr, h1, h2]
  · intro xs q; rfl
  · intro lv iv h
    cases lv <;> cases iv <;> first
      | rfl
      | (exfalso
         rcases h with h | h
         · exact h _ rfl
         · exact h _ rfl)
  · intro xs q h
    simp only [jsArrGet, if_neg h]

/-- Witness for the amended C7 at concrete values: `[9][0]` evaluates to
9 through the characterization, indexing a string errors, and the
out-of-range read `[9][5]` gives none (hence null). -/
theorem claim_C7_index_error_characterization_witness :
    evalExpr 4 (.index (.lit (.list [ .num (mkRat 9 1) ]))
        (.lit (.num (mkRat 0 1)))) {}
      = (.ok (.num (mkRat 9 1)), {}) ∧
    jsIndexAccess (.str "a") (.num (mkRat 0 1))
      = .error "Cannot index non-list or invalid index" ∧
    jsArrGet [ .num (mkRat 9 1) ] (mkRat 5 1) = none := by
  obtain ⟨h1, _, h3, h4⟩ := claim_C7_index_error_characterization
  refine ⟨?_, ?_, ?_⟩
  · have := h1 3 (.lit (.list [ .num (mkRat 9 1) ]))
      (.lit (.num (mkRat 0 1))) {} {} {} (.list [ .num (mkRat 9 1) ])
      (.num (mkRat 0 1)) rfl rfl
    rw [this]; rfl
  · exact h3 (.str "a") (.num (mkRat 0 1))
      (Or.inl (fun xs h => Rv.noConfusion h))
  · exact h4 [ .num (mkRat 9 1) ] (mkRat 5 1) (by decide)

/-- Pass 2 of the evaluator equals its filtered formulation: skipping
function declarations and expression statements inline is running the
list with those statements removed. -/
theorem execGlobals_eq : ∀ (fuel : Nat) (body : List Stmt) (st : St),
    execGlobals fuel body st = execGlobalsSpec fuel body st := by
  intro fuel body
  induction body with
  | nil => intro st; rfl
  | cons s rest ih =>
    intro st
    cases hf : s.isFnDecl <;> cases he : s.isExprStmt <;>
      simp only [execGlobals, execGlobalsSpec, List.filter, hf, he,
        Bool.false_eq_true, Bool.true_eq_false, or_self, or_true, true_or,
        false_or, if_true, if_false, decide_not, Bool.not_false,
        Bool.not_true, Bool.and_self, Bool.false_and, Bool.and_false,
        Bool.true_and, Bool.and_true] <;>
      try exact ih st
    all_goals {
      rcases hr : execStmt fuel s st with ⟨r, st1⟩
      cases r with
      | error e => simp [execTopSeq, hr]
      | ok u =>
        simp only [execTopSeq, hr]
        by_cases hs : st1.shouldReturn = true
        · simp [hs]
        · simp only [if_neg hs]
          exact ih st1
    }

/-- C8.  `Interpreter.execute` behaves exactly as specified: it
registers the function declarations, runs the top-level statements in
order with every function declaration and every expression statement
removed (so a bare top-level call has no effect), and then, when main
is registered, executes its body as a block inside a pushed environment
that is popped when the body finishes. -/
theorem claim_C8_execute_matches_spec :
    ∀ (fuel : Nat) (prog : Program) (st : St),
      execute fuel prog st = executeSpec fuel prog st := by
  intro fuel prog st
  unfold execute executeSpec
  simp only [execGlobals_eq]

def exOk : Except String α → Bool
  | .ok _ => true
  | .error _ => false

def DPres (st : St) (p : Except String α × St) : Prop :=
  p.2.env ≠ [] ∧ (exOk p.1 = true → p.2.env.length = st.env.length)

theorem envDefine_ok {env env' : Env} {n : String} {v : Rv} {m : Bool}
    (h : envDefine env n v m = .ok env') :
    env'.length = env.length ∧ env' ≠ [] := by
  cases env with
  | nil => simp [envDefine] at h
  | cons f rest =>
    simp only [envDefine] at h
    split at h
    · exact absurd h (by simp)
    · cases h; exact ⟨by simp, by simp⟩

theorem envSet_ok {env env' : Env} {n : String} {v : Rv}
    (h : envSet env n v = .ok env') :
    env'.length = env.length ∧ env' ≠ [] := by
  induction env generalizing env' with
  | nil => simp [envSet] at h
  | cons f rest ih =>
    simp only [envSet] at h
    split at h
    · split at h
      · cases h; exact ⟨by simp, by simp⟩
      · exact absurd h (by simp)
    · cases hr : envSet rest n v with
      | error e => rw [hr] at h; exact absurd h (by simp)
      | ok rest2 =>
        rw [hr] at h; cases h
        obtain ⟨hl, _⟩ := ih hr
        exact ⟨by simp [hl], by simp⟩

theorem envSetRaw_length (env : Env) (n : String) (v : Rv) :
    (envSetRaw env n v).length = env.length := by
  induction env with
  | nil => rfl
  | cons f rest ih =>
    simp only [envSetRaw]
    split <;> simp [ih]

theorem envSetRaw_ne {env : Env} (h : env ≠ []) (n : String) (v : Rv) :
    envSetRaw env n v ≠ [] := by
  cases env with
  | nil => exact absurd rfl h
  | cons f rest => simp only [envSetRaw]; split <;> simp

theorem bindParams_ok {ps : List String} {vs : List Rv} {env env' : Env}
    (h : bindParams ps vs env = .ok env') :
    env'.length = env.length ∧ (env ≠ [] → env' ≠ []) := by
  induction ps generalizing vs env env' with
  | nil => simp only [bindParams] at h; cases h; exact ⟨rfl, id⟩
  | cons p ps ih =>
    cases vs with
    | nil => simp only [bindParams] at h; cases h; exact ⟨rfl, id⟩
    | cons v vs =>
      simp only [bindParams] at h
      cases hd : envDefine env p v false with
      | error e => rw [hd] at h; exact absurd h (by simp)
      | ok env2 =>
        rw [hd] at h
        obtain ⟨hl2, hn2⟩ := envDefine_ok hd
        obtain ⟨hl, hn⟩ := ih h
        exact ⟨hl.trans hl2, fun _ => hn hn2⟩

theorem popEnv_spec {env : Env} (h : 2 ≤ env.length) :
    (popEnv env).length + 1 = env.length ∧ popEnv env ≠ [] := by
  match env with
  | [] => simp at h
  | [a] => simp at h
  | a :: b :: rest => exact ⟨by simp [popEnv], by simp [popEnv]⟩

theorem envDepthInv : ∀ fuel : Nat,
    (∀ (e : Expr) (st : St), st.env ≠ [] → DPres st (evalExpr fuel e st)) ∧
    (∀ (es : List Expr) (st : St), st.env ≠ [] →
      DPres st (evalExprs fuel es st)) ∧
    (∀ (nm : String) (args : List Expr) (st : St), st.env ≠ [] →
      DPres st (libCall fuel nm args st)) ∧
    (∀ (nm : String) (args : List Expr) (st : St), st.env ≠ [] →
      DPres st (evalUserCall fuel nm args st)) ∧
    (∀ (s : Stmt) (st : St), st.env ≠ [] → DPres st (execStmt fuel s st)) ∧
    (∀ (c : Expr) (b : List Stmt) (st : St), st.env ≠ [] →
      DPres st (execWhile fuel c b st)) ∧
    (∀ (v : String) (items : List Rv) (b : List Stmt) (st : St),
      st.env ≠ [] → DPres st (execForItems fuel v items b st)) ∧
    (∀ (b : List Stmt) (st : St), st.env ≠ [] →
      DPres st (execSeq fuel b st)) ∧
    (∀ (b : List Stmt) (st : St), st.env ≠ [] →
      DPres st (execBlock fuel b st)) := by
  intro fuel
  induction fuel with
  | zero =>
    refine ⟨?_, ?_, ?_, ?_, ?_, ?_, ?_, ?_, ?_⟩ <;>
      intros <;> exact ⟨by assumption, by simp [exOk, evalExpr, evalExprs,
        libCall, evalUserCall, execStmt, execWhile, execForItems, execSeq,
        execBlock]⟩
  | succ n IH =>
    obtain ⟨ihE, ihEs, ihLib, ihCall, ihStmt, ihWhile, ihFor, ihSeq,
      ihBlock⟩ := IH
    refine ⟨?_, ?_, ?_, ?_, ?_, ?_, ?_, ?_, ?_⟩
    · -- evalExpr
      intro e st h
      cases e with
      | lit v => exact ⟨h, fun _ => rfl⟩
      | var nm =>
        simp only [evalExpr]
        split
        · exact ⟨h, fun _ => rfl⟩
        · exact ⟨h, by simp [exOk]⟩
      | bin op l r =>
        simp only [evalExpr]
        split
        next e1 st1 h1 =>
          have d1 := ihE l st h; rw [h1] at d1
          exact ⟨d1.1, by simp [exOk]⟩
        next lv st1 h1 =>
          have d1 := ihE l st h; rw [h1] at d1
          split
          next e2 st2 h2 =>
            have d2 := ihE r st1 d1.1; rw [h2] at d2
            exact ⟨d2.1, by simp [exOk]⟩
          next rv st2 h2 =>
            have d2 := ihE r st1 d1.1; rw [h2] at d2
            exact ⟨d2.1, fun _ => (d2.2 rfl).trans (d1.2 rfl)⟩
      | call callee args =>
        simp only [evalExpr]
        split
        next fname =>
          by_cases hb : isBuiltIn fname = true
          · rw [if_pos hb]
            exact ihLib fname args st h
          · rw [if_neg hb]
            exact ihCall fname args st h
        next hx => exact ⟨h, by simp [exOk]⟩
      | listE elems =>
        simp only [evalExpr]
        split
        next e1 st1 h1 =>
          have d1 := ihEs elems st h; rw [h1] at d1
          exact ⟨d1.1, by simp [exOk]⟩
        next vs st1 h1 =>
          have d1 := ihEs elems st h; rw [h1] at d1
          exact ⟨d1.1, fun _ => d1.2 rfl⟩
      | index o i =>
        simp only [evalExpr]
        split
        next e1 st1 h1 =>
          have d1 := ihE o st h; rw [h1] at d1
          exact ⟨d1.1, by simp [exOk]⟩
        next ov st1 h1 =>
          have d1 := ihE o st h; rw [h1] at d1
          split
          next e2 st2 h2 =>
            have d2 := ihE i st1 d1.1; rw [h2] at d2
            exact ⟨d2.1, by simp [exOk]⟩
          next iv st2 h2 =>
            have d2 := ihE i st1 d1.1; rw [h2] at d2
            exact ⟨d2.1, fun _ => (d2.2 rfl).trans (d1.2 rfl)⟩
    · -- evalExprs
      intro es st h
      cases es with
      | nil => exact ⟨h, fun _ => rfl⟩
      | cons e rest =>
        simp only [evalExprs]
        split
        next e1 st1 h1 =>
          have d1 := ihE e st h; rw [h1] at d1
          exact ⟨d1.1, by simp [exOk]⟩
        next v st1 h1 =>
          have d1 := ihE e st h; rw [h1] at d1
          split
          next e2 st2 h2 =>
            have d2 := ihEs rest st1 d1.1; rw [h2] at d2
            exact ⟨d2.1, by simp [exOk]⟩
          next vs st2 h2 =>
            have d2 := ihEs rest st1 d1.1; rw [h2] at d2
            exact ⟨d2.1, fun _ => (d2.2 rfl).trans (d1.2 rfl)⟩
    · -- libCall
      intro nm args st h
      simp only [libCall]
      split_ifs with hp hl ht hs htn
      · -- print
        split
        next e1 st1 h1 =>
          have d1 := ihEs args st h; rw [h1] at d1
          exact ⟨d1.1, by simp [exOk]⟩
        next vs st1 h1 =>
          have d1 := ihEs args st h; rw [h1] at d1
          exact ⟨d1.1, fun _ => d1.2 rfl⟩
      · -- len
        split
        next a =>
          split
          next e1 st1 h1 =>
            have d1 := ihE a st h; rw [h1] at d1
            exact ⟨d1.1, by simp [exOk]⟩
          next v st1 h1 =>
            have d1 := ihE a st h; rw [h1] at d1
            cases v with
            | str s => exact ⟨d1.1, fun _ => d1.2 rfl⟩
            | list xs => exact ⟨d1.1, fun _ => d1.2 rfl⟩
            | null => exact ⟨d1.1, by simp [exOk]⟩
            | bool b => exact ⟨d1.1, by simp [exOk]⟩
            | num q => exact ⟨d1.1, by simp [exOk]⟩
        next hx => exact ⟨h, by simp [exOk]⟩
      · -- type
        split
        next a =>
          split
          next e1 st1 h1 =>
            have d1 := ihE a st h; rw [h1] at d1
            exact ⟨d1.1, by simp [exOk]⟩
          next v st1 h1 =>
            have d1 := ihE a st h; rw [h1] at d1
            cases v with
            | null => exact ⟨d1.1, fun _ => d1.2 rfl⟩
            | list xs => exact ⟨d1.1, fun _ => d1.2 rfl⟩
            | bool b => exact ⟨d1.1, fun _ => d1.2 rfl⟩
            | num q => exact ⟨d1.1, fun _ => d1.2 rfl⟩
            | str s => exact ⟨d1.1, fun _ => d1.2 rfl⟩
        next hx => exact ⟨h, by simp [exOk]⟩
      · -- toString
        split
        next a =>
          split
          next e1 st1 h1 =>
            have d1 := ihE a st h; rw [h1] at d1
            exact ⟨d1.1, by simp [exOk]⟩
          next v st1 h1 =>
            have d1 := ihE a st h; rw [h1] at d1
            exact ⟨d1.1, fun _ => d1.2 rfl⟩
        next hx => exact ⟨h, by simp [exOk]⟩
      · -- toNumber
        split
        next a =>
          split
          next e1 st1 h1 =>
            have d1 := ihE a st h; rw [h1] at d1
            exact ⟨d1.1, by simp [exOk]⟩
          next v st1 h1 =>
            have d1 := ihE a st h; rw [h1] at d1
            split
            · exact ⟨d1.1, fun _ => d1.2 rfl⟩
            · split
              · exact ⟨d1.1, fun _ => d1.2 rfl⟩
              · exact ⟨d1.1, by simp [exOk]⟩
            · exact ⟨d1.1, fun _ => d1.2 rfl⟩
            · exact ⟨d1.1, by simp [exOk]⟩
        next hx => exact ⟨h, by simp [exOk]⟩
      · exact ⟨h, by simp [exOk]⟩
    · -- evalUserCall
      intro nm args st h
      simp only [evalUserCall]
      split
      next hf => exact ⟨h, by simp [exOk]⟩
      next f hf =>
        by_cases ha : args.length ≠ f.params.length
        · rw [if_pos ha]
          exact ⟨h, by simp [exOk]⟩
        · rw [if_neg ha]
          split
          next e1 st1 h1 =>
            have d1 := ihEs args st h; rw [h1] at d1
            exact ⟨d1.1, by simp [exOk]⟩
          next vs st1 h1 =>
            have d1 := ihEs args st h; rw [h1] at d1
            split
            next e2 hb => exact ⟨by simp [pushEnv], by simp [exOk]⟩
            next env3 hb =>
              obtain ⟨hbl, _⟩ := bindParams_ok hb
              have henv3 : env3 ≠ [] := by
                intro hx
                rw [hx] at hbl
                simp [pushEnv] at hbl
              split
              next e3 st5 h2 =>
                have d2 := ihBlock f.body { st1 with env := env3, shouldReturn := false, retVal := none } henv3
                rw [h2] at d2
                exact ⟨d2.1, by simp [exOk]⟩
              next u st5 h2 =>
                have d2 := ihBlock f.body { st1 with env := env3, shouldReturn := false, retVal := none } henv3
                rw [h2] at d2
                have h5 : st5.env.length = env3.length := d2.2 rfl
                have hlen5 : st5.env.length = st1.env.length + 1 := by
                  rw [h5, hbl]; simp [pushEnv]
                have h2le : 2 ≤ st5.env.length := by
                  have : st1.env.length ≥ 1 := List.length_pos.mpr d1.1
                  omega
                obtain ⟨hp1, hp2⟩ := popEnv_spec h2le
                refine ⟨hp2, fun _ => ?_⟩
                have hl1 : st1.env.length = st.env.length := d1.2 rfl
                show (popEnv st5.env).length = st.env.length
                omega
    · -- execStmt
      intro s st h
      cases s with
      | varDecl name mutb tyAnn init =>
        simp only [execStmt]
        split
        · simp only [defineWrap]
          split
          next e1 hd => exact ⟨h, by simp [exOk]⟩
          next env2 hd =>
            obtain ⟨hl, hn⟩ := envDefine_ok hd
            exact ⟨hn, fun _ => hl⟩
        next e =>
          split
          next e1 st1 h1 =>
            have d1 := ihE e st h; rw [h1] at d1
            exact ⟨d1.1, by simp [exOk]⟩
          next v st1 h1 =>
            have d1 := ihE e st h; rw [h1] at d1
            simp only [defineWrap]
            split
            next e1 hd => exact ⟨d1.1, by simp [exOk]⟩
            next env2 hd =>
              obtain ⟨hl, hn⟩ := envDefine_ok hd
              exact ⟨hn, fun _ => hl.trans (d1.2 rfl)⟩
      | assign tgt e =>
        simp only [execStmt]
        split
        next e1 st1 h1 =>
          have d1 := ihE e st h; rw [h1] at d1
          exact ⟨d1.1, by simp [exOk]⟩
        next v st1 h1 =>
          have d1 := ihE e st h; rw [h1] at d1
          split
          next e2 hs2 => exact ⟨d1.1, by simp [exOk]⟩
          next env2 hs2 =>
            obtain ⟨hl, hn⟩ := envSet_ok hs2
            exact ⟨hn, fun _ => hl.trans (d1.2 rfl)⟩
      | exprStmt e =>
        simp only [execStmt]
        split
        next e1 st1 h1 =>
          have d1 := ihE e st h; rw [h1] at d1
          exact ⟨d1.1, by simp [exOk]⟩
        next v st1 h1 =>
          have d1 := ihE e st h; rw [h1] at d1
          exact ⟨d1.1, fun _ => d1.2 rfl⟩
      | block body =>
        simp only [execStmt]
        exact ihBlock body st h
      | fnDecl name params retTy body => exact ⟨h, fun _ => rfl⟩
      | listPush tgt v =>
        simp only [execStmt]
        split
        next e1 st1 h1 =>
          have d1 := ihE tgt st h; rw [h1] at d1
          exact ⟨d1.1, by simp [exOk]⟩
        next tv st1 h1 =>
          have d1 := ihE tgt st h; rw [h1] at d1
          split
          next e2 st2 h2 =>
            have d2 := ihE v st1 d1.1; rw [h2] at d2
            exact ⟨d2.1, by simp [exOk]⟩
          next vv st2 h2 =>
            have d2 := ihE v st1 d1.1; rw [h2] at d2
            have hlen : st2.env.length = st.env.length :=
              (d2.2 rfl).trans (d1.2 rfl)
            cases tv with
            | list xs =>
              cases tgt with
              | var nm2 =>
                refine ⟨envSetRaw_ne d2.1 _ _, fun _ => ?_⟩
                show (envSetRaw st2.env nm2 _).length = st.env.length
                rw [envSetRaw_length]
                exact hlen
              | lit x => exact ⟨d2.1, fun _ => hlen⟩
              | bin a b c => exact ⟨d2.1, fun _ => hlen⟩
              | call a b => exact ⟨d2.1, fun _ => hlen⟩
              | listE a => exact ⟨d2.1, fun _ => hlen⟩
              | index a b => exact ⟨d2.1, fun _ => hlen⟩
            | null => exact ⟨d2.1, by simp [exOk]⟩
            | bool b => exact ⟨d2.1, by simp [exOk]⟩
            | num q => exact ⟨d2.1, by simp [exOk]⟩
            | str s2 => exact ⟨d2.1, by simp [exOk]⟩
      | ret arg =>
        simp only [execStmt]
        split
        next e =>
          split
          next e1 st1 h1 =>
            have d1 := ihE e st h; rw [h1] at d1
            exact ⟨d1.1, by simp [exOk]⟩
          next v st1 h1 =>
            have d1 := ihE e st h; rw [h1] at d1
            exact ⟨d1.1, fun _ => d1.2 rfl⟩
        · exact ⟨h, fun _ => rfl⟩
      | ifS cond conseq alt =>
        simp only [execStmt]
        split
        next e1 st1 h1 =>
          have d1 := ihE cond st h; rw [h1] at d1
          exact ⟨d1.1, by simp [exOk]⟩
        next cv st1 h1 =>
          have d1 := ihE cond st h; rw [h1] at d1
          by_cases ht2 : isTruthy cv = true
          · rw [if_pos ht2]
            have d2 := ihBlock conseq st1 d1.1
            exact ⟨d2.1, fun hok => (d2.2 hok).trans (d1.2 rfl)⟩
          · rw [if_neg ht2]
            cases alt with
            | some a =>
              have d2 := ihBlock a st1 d1.1
              exact ⟨d2.1, fun hok => (d2.2 hok).trans (d1.2 rfl)⟩
            | none => exact ⟨d1.1, fun _ => d1.2 rfl⟩
      | whileS cond body =>
        simp only [execStmt]
        exact ihWhile cond body st h
      | forS v iter body isIdx =>
        simp only [execStmt]
        split
        next e1 st1 h1 =>
          have d1 := ihE iter st h; rw [h1] at d1
          exact ⟨d1.1, by simp [exOk]⟩
        next iv st1 h1 =>
          have d1 := ihE iter st h; rw [h1] at d1
          cases iv with
          | list xs =>
            have d2 := ihFor v
              (if isIdx then (List.range xs.length).map
                (fun i => Rv.num (mkRat i 1)) else xs) body st1 d1.1
            exact ⟨d2.1, fun hok => (d2.2 hok).trans (d1.2 rfl)⟩
          | null => exact ⟨d1.1, by simp [exOk]⟩
          | bool b => exact ⟨d1.1, by simp [exOk]⟩
          | num q => exact ⟨d1.1, by simp [exOk]⟩
          | str s => exact ⟨d1.1, by simp [exOk]⟩
    · -- execWhile
      intro c b st h
      simp only [execWhile]
      split
      next e1 st1 h1 =>
        have d1 := ihE c st h; rw [h1] at d1
        exact ⟨d1.1, by simp [exOk]⟩
      next cv st1 h1 =>
        have d1 := ihE c st h; rw [h1] at d1
        by_cases ht2 : isTruthy cv = true
        · rw [if_neg (fun hc => hc ht2)]
          split
          next e2 st2 h2 =>
            have d2 := ihBlock b st1 d1.1; rw [h2] at d2
            exact ⟨d2.1, by simp [exOk]⟩
          next u st2 h2 =>
            have d2 := ihBlock b st1 d1.1; rw [h2] at d2
            by_cases hsr : st2.shouldReturn = true
            · rw [if_pos hsr]
              exact ⟨d2.1, fun _ => (d2.2 rfl).trans (d1.2 rfl)⟩
            · rw [if_neg hsr]
              have d3 := ihWhile c b st2 d2.1
              exact ⟨d3.1, fun hok =>
                ((d3.2 hok).trans (d2.2 rfl)).trans (d1.2 rfl)⟩
        · rw [if_pos ht2]
          exact ⟨d1.1, fun _ => d1.2 rfl⟩
    · -- execForItems
      intro v items b st h
      cases items with
      | nil => exact ⟨h, fun _ => rfl⟩
      | cons item rest =>
        simp only [execForItems]
        split
        next e1 hd => exact ⟨by simp [pushEnv], by simp [exOk]⟩
        next env2 hd =>
          obtain ⟨hl2, hn2⟩ := envDefine_ok hd
          have henv2 : env2 ≠ [] := hn2
          split
          next e2 st2 h2 =>
            have d2 := ihBlock b { st with env := env2 } henv2
            rw [h2] at d2
            exact ⟨d2.1, by simp [exOk]⟩
          next u st2 h2 =>
            have d2 := ihBlock b { st with env := env2 } henv2
            rw [h2] at d2
            have h5 : st2.env.length = env2.length := d2.2 rfl
            have hlen2 : st2.env.length = st.env.length + 1 := by
              rw [h5, hl2]; simp [pushEnv]
            have h2le : 2 ≤ st2.env.length := by
              have : st.env.length ≥ 1 := List.length_pos.mpr h
              omega
            obtain ⟨hp1, hp2⟩ := popEnv_spec h2le
            have hlen3 : (popEnv st2.env).length = st.env.length := by omega
            by_cases hsr : st2.shouldReturn = true
            · rw [if_pos hsr]
              exact ⟨hp2, fun _ => hlen3⟩
            · rw [if_neg hsr]
              have d3 := ihFor v rest b { st2 with env := popEnv st2.env } hp2
              refine ⟨d3.1, fun hok => ?_⟩
              have h6 : _ = (popEnv st2.env).length := d3.2 hok
              rw [h6]
              exact hlen3
    · -- execSeq
      intro b st h
      cases b with
      | nil => exact ⟨h, fun _ => rfl⟩
      | cons s rest =>
        simp only [execSeq]
        split
        next e1 st1 h1 =>
          have d1 := ihStmt s st h; rw [h1] at d1
          exact ⟨d1.1, by simp [exOk]⟩
        next u st1 h1 =>
          have d1 := ihStmt s st h; rw [h1] at d1
          by_cases hsr : st1.shouldReturn = true
          · rw [if_pos hsr]
            exact ⟨d1.1, fun _ => d1.2 rfl⟩
          · rw [if_neg hsr]
            have d2 := ihSeq rest st1 d1.1
            exact ⟨d2.1, fun hok => (d2.2 hok).trans (d1.2 rfl)⟩
    · -- execBlock
      intro b st h
      simp only [execBlock]
      split
      next e1 st1 h1 =>
        have d1 := ihSeq b { st with env := pushEnv st.env }
          (by simp [pushEnv])
        rw [h1] at d1
        exact ⟨d1.1, by simp [exOk]⟩
      next u st1 h1 =>
        have d1 := ihSeq b { st with env := pushEnv st.env }
          (by simp [pushEnv])
        rw [h1] at d1
        have h5 : st1.env.length = (pushEnv st.env).length := d1.2 rfl
        have hlen1 : st1.env.length = st.env.length + 1 := by
          rw [h5]; simp [pushEnv]
        have h2le : 2 ≤ st1.env.length := by
          have : st.env.length ≥ 1 := List.length_pos.mpr h
          omega
        obtain ⟨hp1, hp2⟩ := popEnv_spec h2le
        refine ⟨hp2, fun _ => ?_⟩
        show (popEnv st1.env).length = st.env.length
        omega

/-- C5 as amended.  On every successful exit path of a statement,
normal completion and `shouldReturn` unwinding alike, the depth of the
environment chain after the statement equals its depth before (given
the chain is nonempty, as it always is: the global environment is its
root); a thrown runtime error, however, may leave the chain deepened,
because the pops are skipped while the exception propagates. -/
theorem claim_C5_depth_preserved_on_ok :
    ∀ (fuel : Nat) (s : Stmt) (st st2 : St) (r : Except String Unit),
      execStmt fuel s st = (r, st2) → st.env ≠ [] →
      st2.env ≠ [] ∧ (r = .ok () → st2.env.length = st.env.length) := by
  intro fuel s st st2 r hx h
  have d := (envDepthInv fuel).2.2.2.2.1 s st h
  rw [hx] at d
  exact ⟨d.1, fun hr => d.2 (by rw [hr]; rfl)⟩

/-- Witness for the amended C5: a block holding one harmless expression
statement, run from the initial state, exits with the one-frame chain
it entered with. -/
theorem claim_C5_depth_preserved_on_ok_witness :
    (execStmt 10 (Stmt.block [Stmt.exprStmt (Expr.lit Rv.null)]) {}).2.env
      ≠ [] ∧
    ((execStmt 10 (Stmt.block [Stmt.exprStmt (Expr.lit Rv.null)]) {}).1
        = .ok () →
      (execStmt 10 (Stmt.block [Stmt.exprStmt (Expr.lit Rv.null)]) {}).2.env.length
        = ({} : St).env.length) :=
  claim_C5_depth_preserved_on_ok 10
    (Stmt.block [Stmt.exprStmt (Expr.lit Rv.null)]) {} _ _ rfl (by simp)

end JAL
